import Mathlib

set_option linter.dupNamespace false

/-! pocketdb: session management, capability cache and request rate limiter

A shallow embedding of the authentication core of the repository
(`services/auth/biz/login.biz.go`, `services/auth/biz/user.biz.go`), of the
in-memory rate limiter and its middleware (`tools/middleware/ratelimiter.go`),
of the guest and auth middlewares and of `realUserIp`
(`services/datastorage/apis/middlewares.go`) and of the base model
(`services/datastorage/models/base.go`), followed by theorems about them.

Conventions of the embedding

* Times and durations are integers counting nanoseconds (`time.Duration`,
  `time.Time.UnixNano`).
* A Go `error` is a value of `GoError`; the `nil` error is `none`.
* Every method that reads a clock receives the instant `now` of the call.
-/

/-! ## Part 1. The rate limiter -/

namespace rate

/-- The refill rate of a limiter (`rate.Limit`).  `rate.Limit` is a number of
tokens per second; the only limits built by this repository are the results of
`rate.Every`, so a finite limit is kept as the interval between two tokens. -/
inductive Limit where
  /-- The infinite limit `rate.Inf`: every event is allowed. -/
  | Inf : Limit
  /-- One token every `interval` nanoseconds (`interval > 0`). -/
  | perInterval (interval : Int) : Limit
  deriving DecidableEq, Repr

/-- The conversion `rate.Every(interval)`: one event per `interval`; a
non-positive interval gives `rate.Inf`. -/
def Every (interval : Int) : Limit :=
  if interval ≤ 0 then Limit.Inf else Limit.perInterval interval

/-- The token bucket `rate.Limiter`.

`credit` is the field `tokens` of the library measured in nanoseconds of refill
time: for a limit of one token per `interval`, `credit = tokens * interval`.
All quantities of the bucket are multiples of `1 / interval`, so this
representation is exact (the library computes with `float64`; rounding is
outside the model). -/
structure Limiter where
  limit : Limit
  burst : Int
  credit : Int
  last : Int
  deriving DecidableEq, Repr

/-- Nanoseconds of refill time that one token costs under `l`. -/
def Limit.cost : Limit → Int
  | Limit.Inf => 0
  | Limit.perInterval interval => interval

/-- The constructor `rate.NewLimiter(r, b)`: a bucket of size `b`, initially
full, refilled at rate `r`. -/
def NewLimiter (r : Limit) (b : Int) : Limiter :=
  { limit := r, burst := b, credit := b * r.cost, last := 0 }

/-- The bucket holding `k` tokens of a limiter of one token per `period` and of
burst `n`, last updated at `now`. -/
def bucket (period : Int) (n : Int) (k : Int) (now : Int) : Limiter :=
  { limit := Limit.perInterval period, burst := n, credit := k * period, last := now }

/-- The method `advance`: the credit the bucket holds at instant `t`, the
elapsed time since `last` being added and the result capped at `burst` tokens.
An instant before `last` counts as no elapsed time. -/
def Limiter.advance (lim : Limiter) (t : Int) : Int :=
  let last := if t < lim.last then t else lim.last
  let elapsed := t - last
  let credit := lim.credit + elapsed
  if credit > lim.burst * lim.limit.cost then lim.burst * lim.limit.cost else credit

/-- The method `Allow()`, that is `reserveN(now, 1, 0)`: take one token if one is
available now.  The bucket is updated only when the event is allowed.

The arithmetic is exact.  The library computes the tokens and the wait in
`float64` and truncates the wait to whole nanoseconds, so that its answer can
differ from the exact one when the bucket is short of a token by about one
nanosecond of refill time or less; calls made at one instant, and calls that are
two nanoseconds or more away from the instant at which a token becomes
available, are not affected. -/
def Limiter.Allow (lim : Limiter) (now : Int) : Bool × Limiter :=
  match lim.limit with
  | Limit.Inf => (true, lim)
  | Limit.perInterval interval =>
    let credit := lim.advance now - interval
    let waitDuration : Int := if credit < 0 then -credit else 0
    let ok := decide (1 ≤ lim.burst) && decide (waitDuration ≤ 0)
    if ok then (true, { lim with last := now, credit := credit }) else (false, lim)

end rate

namespace gocache

/-- An entry of the expiring map (`cache.Item`): the stored object and its
expiration instant, `0` meaning that it never expires. -/
structure Item (α : Type) where
  Object : α
  Expiration : Int

/-- The expiring map `cache.Cache` of `patrickmn/go-cache`. -/
structure Cache (α : Type) where
  defaultExpiration : Int
  items : String → Option (Item α)

/-- The constructor `cache.New(defaultExpiration, cleanupInterval)`; a default
expiration of `0` means no expiration (`-1`).  The cleanup interval only drives
the janitor, which removes entries that `Get` already hides. -/
def New {α : Type} (defaultExpiration : Int) : Cache α :=
  { defaultExpiration := if defaultExpiration = 0 then -1 else defaultExpiration,
    items := fun _ => none }

/-- The method `Get(k)`: the object stored under `k`, unless it has expired. -/
def Cache.Get {α : Type} (c : Cache α) (now : Int) (k : String) : Option α :=
  match c.items k with
  | none => none
  | some item =>
    if item.Expiration > 0 ∧ now > item.Expiration then none else some item.Object

/-- The method `SetDefault(k, x)`: store `x` under `k` with the default
expiration. -/
def Cache.SetDefault {α : Type} (c : Cache α) (now : Int) (k : String) (x : α) : Cache α :=
  let e : Int := if c.defaultExpiration > 0 then now + c.defaultExpiration else 0
  { c with items := fun j => if j = k then some { Object := x, Expiration := e } else c.items j }

end gocache

/-- A Go error value.  `app` is an error built by the package `errors`
(`errors.BadRequest`, `errors.Unauthorized`, ...): its HTTP status code, its
id and its message.  `ErrInvalidToken` is the sentinel `jwtx.ErrInvalidToken`.
`other` is any other error, such as a failure of a store. -/
inductive GoError where
  | app (code : Nat) (id : String) (detail : String) : GoError
  | ErrInvalidToken : GoError
  | other (text : String) : GoError
  deriving DecidableEq, Repr

/-- The store `RateLimiterMemoryStore`: one limiter per identifier, in an
expiring map. -/
structure RateLimiterMemoryStore where
  cache : gocache.Cache rate.Limiter

/-- The constructor `NewRateLimiterMemoryStore(config)`. -/
def NewRateLimiterMemoryStore (expiration : Int) : RateLimiterMemoryStore :=
  { cache := gocache.New expiration }

/-- The method `RateLimiterMemoryStore.Allow(ctx, identifier, period,
maxRequests)`, called at instant `now`.  Returns the pair `(allowed, err)` and
the store after the call. -/
def RateLimiterMemoryStore.Allow (s : RateLimiterMemoryStore) (now : Int)
    (identifier : String) (period : Int) (maxRequests : Int) :
    (Bool × Option GoError) × RateLimiterMemoryStore :=
  if period ≤ 0 ∨ maxRequests ≤ 0 then
    ((true, none), s)
  else
    match s.cache.Get now identifier with
    | some limiter =>
      let r := limiter.Allow now
      ((r.1, none), { cache := s.cache.SetDefault now identifier r.2 })
    | none =>
      let limiter := rate.NewLimiter (rate.Every period) maxRequests
      let r := limiter.Allow now
      ((true, none), { cache := s.cache.SetDefault now identifier r.2 })

/-- A request to the limiter: the instant of the call and its arguments. -/
structure AllowCall where
  now : Int
  identifier : String
  period : Int
  maxRequests : Int

/-- Run a sequence of `Allow` calls on a store; the list of the `allowed`
results, in order, and the final store. -/
def runAllow : RateLimiterMemoryStore → List AllowCall → List Bool × RateLimiterMemoryStore
  | s, [] => ([], s)
  | s, c :: cs =>
    let r := s.Allow c.now c.identifier c.period c.maxRequests
    let rest := runAllow r.2 cs
    (r.1.1 :: rest.1, rest.2)

/-! ## Part 2. Session management and the capability cache -/

namespace errors

/-- The constructor `errors.BadRequest(id, msg)`: an error of kind BadRequest
(status 400). -/
def BadRequest (id : String) (msg : String) : GoError := GoError.app 400 id msg

/-- The constructor `errors.Unauthorized(id, msg)`: an error of kind
Unauthorized (status 401). -/
def Unauthorized (id : String) (msg : String) : GoError := GoError.app 401 id msg

/-- The constructor `errors.NotFound(id, msg)`: an error of kind NotFound
(status 404). -/
def NotFound (id : String) (msg : String) : GoError := GoError.app 404 id msg

/-- The constructor `errors.InternalServerError(id, msg)`: an error of status
500. -/
def InternalServerError (id : String) (msg : String) : GoError := GoError.app 500 id msg

/-- The constructor `errors.TooManyRequests(id, msg)`: an error of status 429. -/
def TooManyRequests (id : String) (msg : String) : GoError := GoError.app 429 id msg

end errors

/-- A row of the user table (`sch.User`), with the columns the session manager
reads or writes. -/
structure User where
  ID : String
  Username : String
  Password : String
  Status : String
  deriving DecidableEq, Repr

/-- A row of the user-role table (`sch.UserRole`). -/
structure UserRole where
  ID : String
  UserID : String
  RoleID : String
  deriving DecidableEq, Repr

/-- The request body of user creation and update (`sch.UserForm`). -/
structure UserForm where
  Username : String
  Password : String
  Status : String
  Roles : List UserRole
  deriving DecidableEq, Repr

/-- The request body of login (`sch.LoginForm`). -/
structure LoginForm where
  Username : String
  Password : String
  deriving DecidableEq, Repr

/-- The request body of a password change (`sch.UpdateLoginPassword`). -/
structure UpdateLoginPassword where
  OldPassword : String
  NewPassword : String
  deriving DecidableEq, Repr

/-- The token handed to the client (`sch.LoginToken`). -/
structure LoginToken where
  AccessToken : String
  TokenType : String
  ExpiresAt : Int
  deriving DecidableEq, Repr

/-- The operations of the stores that can fail. -/
inductive Op where
  | CacheGet | CacheSet | CacheDelete
  | UserGet | UserGetByUsername | UserExists | UserExistsUsername
  | UserUpdate | UserDelete | UserUpdatePasswordByID
  | UserRoleQuery | UserRoleDeleteByUserID | UserRoleCreate
  | DestroyToken | Commit
  deriving DecidableEq, Repr

/-- The read-only surroundings of the session manager: the configuration
(`config.C`), the constants of the packages `config` and `sch`, the pure
helpers of the packages `hash`, `util` and `jwtx`, and which store operations
fail, with which error. -/
structure Env where
  /-- The field `config.C.General.Root.ID`. -/
  RootID : String
  /-- The field `config.C.General.Root.Username`. -/
  RootUsername : String
  /-- The field `config.C.General.Root.Password`. -/
  RootPassword : String
  /-- The field `config.C.Middleware.Auth.Disable`. -/
  AuthDisable : Bool
  /-- The field `config.C.Dictionary.UserCacheExp`, in hours. -/
  UserCacheExp : Int
  /-- The constant `config.ErrInvalidTokenID`. -/
  ErrInvalidTokenID : String
  /-- The constant `config.ErrInvalidUsernameOrPassword`. -/
  ErrInvalidUsernameOrPassword : String
  /-- The constant `config.CacheNSForUser`. -/
  CacheNSForUser : String
  /-- The constant `sch.UserStatusActivated`. -/
  UserStatusActivated : String
  /-- The function `hash.MD5String`. -/
  MD5String : String → String
  /-- The function `hash.CompareHashAndPassword(hash, password)`; `none` when the
  password matches. -/
  CompareHashAndPassword : String → String → Option GoError
  /-- The method `util.UserCache.String()`: the serialization of a role-id list. -/
  UserCacheString : List String → String
  /-- The function `util.ParseUserCache`: the role ids of a serialized snapshot. -/
  ParseUserCache : String → List String
  /-- Signature and expiry validation of a token by the token service: the
  subject of the token, or the error of the validation. -/
  verify : String → Except GoError String
  /-- The method `Auther.GenerateToken`, followed by `EncodeToJSON`. -/
  GenerateToken : String → Except GoError LoginToken
  /-- The method `sch.UserForm.FillTo`. -/
  FillTo : UserForm → User → Except GoError User
  /-- The function `util.NewXID`, as a function of the number of ids already
  drawn. -/
  NewXID : Nat → String
  /-- The error with which a store operation fails, `none` when it works. -/
  fault : Op → Option GoError
  /-- The function `hash.GeneratePassword`: the hash of a password, or the error
  of the generation. -/
  GeneratePassword : String → Except GoError String

/-- An entry of the capability cache: the stored value and the time to live
passed to `Set`, `none` when the caller passed none. -/
structure CacheEntry where
  value : String
  ttl : Option Int
  deriving DecidableEq, Repr

/-- A call received by a collaborator of the session manager. -/
inductive Call where
  | ParseSubject (token : String)
  | GenerateToken (userID : String)
  | DestroyToken (token : String)
  | CacheGet (ns : String) (key : String)
  | CacheSet (ns : String) (key : String) (value : String) (ttl : Option Int)
  | CacheDelete (ns : String) (key : String)
  | UserGet (id : String) (fields : List String)
  | UserGetByUsername (username : String) (fields : List String)
  | UserExists (id : String)
  | UserExistsUsername (username : String)
  | UserUpdate (item : User)
  | UserDelete (id : String)
  | UserRoleQuery (userID : String)
  | UserRoleDeleteByUserID (userID : String)
  | UserRoleCreate (item : UserRole)
  | CompareHashAndPassword (hash : String) (password : String)
  | GeneratePassword (password : String)
  | UserUpdatePasswordByID (id : String) (password : String)
  deriving DecidableEq, Repr

/-- The mutable state around the session manager: the user and user-role
tables, the capability cache, the revoked tokens, the number of ids drawn, and
the calls received by the collaborators so far, oldest first. -/
structure World where
  users : List User
  userRoles : List UserRole
  cache : String → String → Option CacheEntry
  destroyed : List String
  xids : Nat
  trace : List Call

/-- Record a call. -/
def World.log (w : World) (c : Call) : World := { w with trace := w.trace ++ [c] }

/-- The values carried by a request context (`context.Context`): the token, the
user id, the root flag and the capability snapshot (`util.NewUserToken`,
`util.NewUserID`, `util.NewIsRootUser`, `util.NewUserCache`). -/
structure Ctx where
  UserToken : String
  UserID : String
  IsRootUser : Bool
  UserCache : Option (List String)
  deriving DecidableEq, Repr

/-- The part of `gin.Context` the session manager uses: the bearer token of the
request (`util.GetToken(c)`) and the context of the request
(`c.Request.Context()`). -/
structure GinContext where
  token : String
  ctx : Ctx
  deriving DecidableEq, Repr

/-- The column selection of a query (`util.QueryOptions.SelectFields`): with a
non-empty selection only the selected columns are loaded. -/
def User.selectFields (fields : List String) (u : User) : User :=
  if fields = [] then u else
    { ID := if "id" ∈ fields then u.ID else "",
      Username := if "username" ∈ fields then u.Username else "",
      Password := if "password" ∈ fields then u.Password else "",
      Status := if "status" ∈ fields then u.Status else "" }

namespace jwtx

/-- Modelled from the spec: the method `Auther.ParseSubject` of the token
service, which is not among the sources.  A destroyed token fails with
`ErrInvalidToken`; otherwise the result is that of signature and expiry
validation. -/
def ParseSubject (env : Env) (w : World) (token : String) : Except GoError String × World :=
  let w := w.log (Call.ParseSubject token)
  if token ∈ w.destroyed then (Except.error GoError.ErrInvalidToken, w) else (env.verify token, w)

/-- Modelled from the spec: the method `Auther.DestroyToken` of the token
service, which is not among the sources.  It marks the token as revoked;
destroying a token that is already destroyed is not an error. -/
def DestroyToken (env : Env) (w : World) (token : String) : Option GoError × World :=
  let w := w.log (Call.DestroyToken token)
  match env.fault Op.DestroyToken with
  | some e => (some e, w)
  | none => (none, { w with destroyed := token :: w.destroyed })

end jwtx

namespace cachex

/-- Modelled from the spec: the method `Cacher.Get(ctx, ns, key)` of the
capability cache, which is not among the sources: `(value, found, error)`.  An
expired entry is an entry that is no longer in the map. -/
def Get (env : Env) (w : World) (ns : String) (key : String) :
    Except GoError (Option String) × World :=
  let w := w.log (Call.CacheGet ns key)
  match env.fault Op.CacheGet with
  | some e => (Except.error e, w)
  | none => (Except.ok ((w.cache ns key).map CacheEntry.value), w)

/-- Modelled from the spec: the method `Cacher.Set(ctx, ns, key, value, ttl...)`. -/
def Set (env : Env) (w : World) (ns : String) (key : String) (value : String)
    (ttl : Option Int) : Option GoError × World :=
  let w := w.log (Call.CacheSet ns key value ttl)
  match env.fault Op.CacheSet with
  | some e => (some e, w)
  | none =>
    (none, { w with cache := fun n k =>
      if n = ns ∧ k = key then some { value := value, ttl := ttl } else w.cache n k })

/-- Modelled from the spec: the method `Cacher.Delete(ctx, ns, key)`; deleting an
absent entry is not an error. -/
def Delete (env : Env) (w : World) (ns : String) (key : String) : Option GoError × World :=
  let w := w.log (Call.CacheDelete ns key)
  match env.fault Op.CacheDelete with
  | some e => (some e, w)
  | none => (none, { w with cache := fun n k => if n = ns ∧ k = key then none else w.cache n k })

end cachex

namespace dal

/-- The method `dal.User.Get(ctx, id, opts...)`: the first row with this id,
`none` when there is none. -/
def User.Get (env : Env) (w : World) (id : String) (fields : List String) :
    Except GoError (Option User) × World :=
  let w := w.log (Call.UserGet id fields)
  match env.fault Op.UserGet with
  | some e => (Except.error e, w)
  | none => (Except.ok ((w.users.find? (fun u => u.ID = id)).map (User.selectFields fields)), w)

/-- The method `dal.User.GetByUsername(ctx, username, opts...)`. -/
def User.GetByUsername (env : Env) (w : World) (username : String) (fields : List String) :
    Except GoError (Option User) × World :=
  let w := w.log (Call.UserGetByUsername username fields)
  match env.fault Op.UserGetByUsername with
  | some e => (Except.error e, w)
  | none =>
    (Except.ok ((w.users.find? (fun u => u.Username = username)).map (User.selectFields fields)), w)

/-- The method `dal.User.Exists(ctx, id)`. -/
def User.Exists (env : Env) (w : World) (id : String) : Except GoError Bool × World :=
  let w := w.log (Call.UserExists id)
  match env.fault Op.UserExists with
  | some e => (Except.error e, w)
  | none => (Except.ok (w.users.any (fun u => u.ID = id)), w)

/-- The method `dal.User.ExistsUsername(ctx, username)`. -/
def User.ExistsUsername (env : Env) (w : World) (username : String) :
    Except GoError Bool × World :=
  let w := w.log (Call.UserExistsUsername username)
  match env.fault Op.UserExistsUsername with
  | some e => (Except.error e, w)
  | none => (Except.ok (w.users.any (fun u => u.Username = username)), w)

/-- The method `dal.User.Update(ctx, item)`: overwrite the rows whose id is
`item.ID`. -/
def User.Update (env : Env) (w : World) (item : User) : Option GoError × World :=
  let w := w.log (Call.UserUpdate item)
  match env.fault Op.UserUpdate with
  | some e => (some e, w)
  | none => (none, { w with users := w.users.map (fun u => if u.ID = item.ID then item else u) })

/-- The method `dal.User.Delete(ctx, id)`. -/
def User.Delete (env : Env) (w : World) (id : String) : Option GoError × World :=
  let w := w.log (Call.UserDelete id)
  match env.fault Op.UserDelete with
  | some e => (some e, w)
  | none => (none, { w with users := w.users.filter (fun u => u.ID ≠ id) })

/-- The method `dal.User.UpdatePasswordByID(ctx, id, password)`: set the column
`password` of the rows whose id is `id`. -/
def User.UpdatePasswordByID (env : Env) (w : World) (id : String) (password : String) :
    Option GoError × World :=
  let w := w.log (Call.UserUpdatePasswordByID id password)
  match env.fault Op.UserUpdatePasswordByID with
  | some e => (some e, w)
  | none =>
    (none, { w with
      users := w.users.map (fun u => if u.ID = id then { u with Password := password } else u) })

/-- Modelled from the spec: the query `dal.UserRole.Query` by user id, which is
not among the sources (user store, `GetRoleIDs(userID)`): the rows of the
user. -/
def UserRole.Query (env : Env) (w : World) (userID : String) :
    Except GoError (List UserRole) × World :=
  let w := w.log (Call.UserRoleQuery userID)
  match env.fault Op.UserRoleQuery with
  | some e => (Except.error e, w)
  | none => (Except.ok (w.userRoles.filter (fun r => r.UserID = userID)), w)

/-- Modelled from the spec: the method `dal.UserRole.DeleteByUserID`, which is
not among the sources: remove the rows of the user. -/
def UserRole.DeleteByUserID (env : Env) (w : World) (userID : String) :
    Option GoError × World :=
  let w := w.log (Call.UserRoleDeleteByUserID userID)
  match env.fault Op.UserRoleDeleteByUserID with
  | some e => (some e, w)
  | none => (none, { w with userRoles := w.userRoles.filter (fun r => r.UserID ≠ userID) })

/-- Modelled from the spec: the method `dal.UserRole.Create`, which is not among
the sources: add a row. -/
def UserRole.Create (env : Env) (w : World) (item : UserRole) : Option GoError × World :=
  let w := w.log (Call.UserRoleCreate item)
  match env.fault Op.UserRoleCreate with
  | some e => (some e, w)
  | none => (none, { w with userRoles := w.userRoles ++ [item] })

end dal

namespace util

/-- Modelled from the spec: the method `util.Trans.Exec(ctx, fn)`, which is not
among the sources.  It runs `fn` in a database transaction and returns the error
of `fn`, or else the error of the commit; on an error the two tables are rolled
back, while the cache, which is not part of the database, keeps its state. -/
def Trans.Exec (env : Env) (w : World) (fn : World → Option GoError × World) :
    Option GoError × World :=
  match fn w with
  | (some e, w1) => (some e, { w1 with users := w.users, userRoles := w.userRoles })
  | (none, w1) =>
    match env.fault Op.Commit with
    | some e => (some e, { w1 with users := w.users, userRoles := w.userRoles })
    | none => (none, w1)

end util

namespace biz

/-- The method `User.GetRoleIDs(ctx, id)`. -/
def User.GetRoleIDs (env : Env) (w : World) (id : String) :
    Except GoError (List String) × World :=
  match dal.UserRole.Query env w id with
  | (Except.error err, w) => (Except.error err, w)
  | (Except.ok data, w) => (Except.ok (data.map UserRole.RoleID), w)

/-- The loop of `User.Update` over `formItem.Roles`: give each role row an id
when it has none, attach it to the user and create it; stop at the first
error. -/
def User.createRoles (env : Env) (userID : String) :
    World → List UserRole → Option GoError × World
  | w, [] => (none, w)
  | w, userRole :: rest =>
    let (id, w) :=
      if userRole.ID = "" then (env.NewXID w.xids, { w with xids := w.xids + 1 })
      else (userRole.ID, w)
    match dal.UserRole.Create env w { userRole with ID := id, UserID := userID } with
    | (some err, w) => (some err, w)
    | (none, w) => User.createRoles env userID w rest

/-- The method `User.Update(ctx, id, formItem)`. -/
def User.Update (env : Env) (w : World) (id : String) (formItem : UserForm) :
    Option GoError × World :=
  match dal.User.Get env w id [] with
  | (Except.error err, w) => (some err, w)
  | (Except.ok none, w) => (some (errors.NotFound "" "User not found"), w)
  | (Except.ok (some user), w) =>
    let checked : Option GoError × World :=
      if user.Username ≠ formItem.Username then
        match dal.User.ExistsUsername env w formItem.Username with
        | (Except.error err, w) => (some err, w)
        | (Except.ok existsUsername, w) =>
          if existsUsername then (some (errors.BadRequest "" "Username already exists"), w)
          else (none, w)
      else (none, w)
    match checked with
    | (some err, w) => (some err, w)
    | (none, w) =>
      match env.FillTo formItem user with
      | Except.error err => (some err, w)
      | Except.ok user =>
        util.Trans.Exec env w (fun w =>
          match dal.User.Update env w user with
          | (some err, w) => (some err, w)
          | (none, w) =>
            match dal.UserRole.DeleteByUserID env w id with
            | (some err, w) => (some err, w)
            | (none, w) =>
              match User.createRoles env user.ID w formItem.Roles with
              | (some err, w) => (some err, w)
              | (none, w) => cachex.Delete env w env.CacheNSForUser id)

/-- The method `User.Delete(ctx, id)`. -/
def User.Delete (env : Env) (w : World) (id : String) : Option GoError × World :=
  match dal.User.Exists env w id with
  | (Except.error err, w) => (some err, w)
  | (Except.ok found, w) =>
    if !found then (some (errors.NotFound "" "User not found"), w)
    else
      util.Trans.Exec env w (fun w =>
        match dal.User.Delete env w id with
        | (some err, w) => (some err, w)
        | (none, w) =>
          match dal.UserRole.DeleteByUserID env w id with
          | (some err, w) => (some err, w)
          | (none, w) => cachex.Delete env w env.CacheNSForUser id)

end biz

namespace time

/-- The product `time.Duration(n) * time.Hour`, in the 64-bit signed integers of
`time.Duration`. -/
def Hours (n : Int) : Int := Int.bmod (n * 3600000000000) (2 ^ 64)

end time

namespace hash

/-- The call `hash.CompareHashAndPassword(hash, password)`, recorded. -/
def CompareHashAndPassword (env : Env) (w : World) (hashed : String) (password : String) :
    Option GoError × World :=
  (env.CompareHashAndPassword hashed password, w.log (Call.CompareHashAndPassword hashed password))

/-- The call `hash.GeneratePassword(password)`, recorded. -/
def GeneratePassword (env : Env) (w : World) (password : String) :
    Except GoError String × World :=
  (env.GeneratePassword password, w.log (Call.GeneratePassword password))

end hash

namespace biz

/-- The method `Login.ParseUserID(c)`: the pair `(userID, err)`, the request after
the call and the state after the call. -/
def Login.ParseUserID (env : Env) (w : World) (c : GinContext) :
    (String × Option GoError) × GinContext × World :=
  let rootID := env.RootID
  if env.AuthDisable then ((rootID, none), c, w)
  else
    let invalidToken := errors.Unauthorized env.ErrInvalidTokenID "Invalid access token"
    let token := c.token
    if token = "" then (("", some invalidToken), c, w)
    else
      let ctx : Ctx := { c.ctx with UserToken := token }
      match jwtx.ParseSubject env w token with
      | (Except.error err, w) =>
        if err = GoError.ErrInvalidToken then (("", some invalidToken), c, w)
        else (("", some err), c, w)
      | (Except.ok userID, w) =>
        if userID = rootID then
          ((userID, none), { c with ctx := { ctx with IsRootUser := true } }, w)
        else
          match cachex.Get env w env.CacheNSForUser userID with
          | (Except.error err, w) => (("", some err), c, w)
          | (Except.ok (some userCacheVal), w) =>
            let userCache := env.ParseUserCache userCacheVal
            ((userID, none), { c with ctx := { ctx with UserCache := some userCache } }, w)
          | (Except.ok none, w) =>
            -- Check user status, if not activated, force to logout
            match dal.User.Get env w userID ["status"] with
            | (Except.error err, w) => (("", some err), c, w)
            | (Except.ok none, w) => (("", some invalidToken), c, w)
            | (Except.ok (some user), w) =>
              if user.Status ≠ env.UserStatusActivated then (("", some invalidToken), c, w)
              else
                match User.GetRoleIDs env w userID with
                | (Except.error err, w) => (("", some err), c, w)
                | (Except.ok roleIDs, w) =>
                  match cachex.Set env w env.CacheNSForUser userID
                      (env.UserCacheString roleIDs) none with
                  | (some err, w) => (("", some err), c, w)
                  | (none, w) =>
                    ((userID, none), { c with ctx := { ctx with UserCache := some roleIDs } }, w)

/-- The method `Login.genUserToken(ctx, userID)`. -/
def Login.genUserToken (env : Env) (w : World) (userID : String) :
    (Option LoginToken × Option GoError) × World :=
  let w := w.log (Call.GenerateToken userID)
  match env.GenerateToken userID with
  | Except.error err => ((none, some err), w)
  | Except.ok token => ((some token, none), w)

/-- The method `Login.Login(ctx, formItem)`: the pair `(token, err)` and the state
after the call. -/
def Login.Login (env : Env) (w : World) (formItem : LoginForm) :
    (Option LoginToken × Option GoError) × World :=
  -- login by root
  if formItem.Username = env.RootUsername then
    if formItem.Password ≠ env.MD5String env.RootPassword then
      ((none, some (errors.BadRequest env.ErrInvalidUsernameOrPassword "Incorrect password")), w)
    else Login.genUserToken env w env.RootID
  else
    -- get user info
    match dal.User.GetByUsername env w formItem.Username ["id", "password", "status"] with
    | (Except.error err, w) => ((none, some err), w)
    | (Except.ok none, w) =>
      ((none, some (errors.BadRequest env.ErrInvalidUsernameOrPassword "Incorrect username")), w)
    | (Except.ok (some user), w) =>
      if user.Status ≠ env.UserStatusActivated then
        ((none, some (errors.BadRequest ""
          "User status is not activated, please contact the administrator")), w)
      else
        -- check password
        match hash.CompareHashAndPassword env w user.Password formItem.Password with
        | (some _, w) =>
          ((none, some (errors.BadRequest env.ErrInvalidUsernameOrPassword
            "Incorrect password")), w)
        | (none, w) =>
          let userID := user.ID
          -- set user cache with role ids
          match User.GetRoleIDs env w userID with
          | (Except.error err, w) => ((none, some err), w)
          | (Except.ok roleIDs, w) =>
            let r := cachex.Set env w env.CacheNSForUser userID (env.UserCacheString roleIDs)
              (some (time.Hours env.UserCacheExp))
            -- a failure of the cache is logged only
            Login.genUserToken env r.2 userID

/-- The method `Login.RefreshToken(ctx)`: the pair `(token, err)` and the state
after the call. -/
def Login.RefreshToken (env : Env) (w : World) (ctx : Ctx) :
    (Option LoginToken × Option GoError) × World :=
  let userID := ctx.UserID
  match dal.User.Get env w userID ["status"] with
  | (Except.error err, w) => ((none, some err), w)
  | (Except.ok none, w) => ((none, some (errors.BadRequest "" "Incorrect user")), w)
  | (Except.ok (some user), w) =>
    if user.Status ≠ env.UserStatusActivated then
      ((none, some (errors.BadRequest ""
        "User status is not activated, please contact the administrator")), w)
    else Login.genUserToken env w userID

/-- The method `Login.Logout(ctx)`: the returned error and the state after the
call. -/
def Login.Logout (env : Env) (w : World) (ctx : Ctx) : Option GoError × World :=
  let userToken := ctx.UserToken
  if userToken = "" then (none, w)
  else
    match jwtx.DestroyToken env w userToken with
    | (some err, w) => (some err, w)
    | (none, w) =>
      let userID := ctx.UserID
      let r := cachex.Delete env w env.CacheNSForUser userID
      -- a failure of the cache is logged only
      (none, r.2)

/-- The method `Login.UpdatePassword(ctx, updateItem)`: the returned error and the
state after the call. -/
def Login.UpdatePassword (env : Env) (w : World) (ctx : Ctx) (updateItem : UpdateLoginPassword) :
    Option GoError × World :=
  if ctx.IsRootUser then (some (errors.BadRequest "" "Root user cannot change password"), w)
  else
    let userID := ctx.UserID
    match dal.User.Get env w userID ["password"] with
    | (Except.error err, w) => (some err, w)
    | (Except.ok none, w) => (some (errors.NotFound "" "User not found"), w)
    | (Except.ok (some user), w) =>
      -- check old password
      match hash.CompareHashAndPassword env w user.Password updateItem.OldPassword with
      | (some _, w) => (some (errors.BadRequest "" "Incorrect old password"), w)
      | (none, w) =>
        -- update password
        match hash.GeneratePassword env w updateItem.NewPassword with
        | (Except.error err, w) => (some err, w)
        | (Except.ok newPassword, w) => dal.User.UpdatePasswordByID env w userID newPassword

end biz

/-- An operation of the session manager or of user management, with its
arguments. -/
inductive Operation where
  | ParseUserID (c : GinContext)
  | Login (formItem : LoginForm)
  | RefreshToken (ctx : Ctx)
  | Logout (ctx : Ctx)
  | UserUpdate (id : String) (formItem : UserForm)
  | UserDelete (id : String)

/-- The state after an operation. -/
def Operation.run (env : Env) (w : World) : Operation → World
  | Operation.ParseUserID c => (biz.Login.ParseUserID env w c).2.2
  | Operation.Login formItem => (biz.Login.Login env w formItem).2
  | Operation.RefreshToken ctx => (biz.Login.RefreshToken env w ctx).2
  | Operation.Logout ctx => (biz.Login.Logout env w ctx).2
  | Operation.UserUpdate id formItem => (biz.User.Update env w id formItem).2
  | Operation.UserDelete id => (biz.User.Delete env w id).2

/-- The state after a sequence of operations, each one run in its own
surroundings (the stores may fail for one operation and work for the next). -/
def runOperations : World → List (Env × Operation) → World
  | w, [] => w
  | w, (env, op) :: rest => runOperations (op.run env w) rest

/-! ## Part 2b. The rate-limiter middleware -/

namespace time

/-- The product `time.Second * time.Duration(n)`, in the 64-bit signed integers
of `time.Duration`. -/
def Seconds (n : Int) : Int := Int.bmod (1000000000 * n) (2 ^ 64)

end time

namespace middleware

/-- The configuration `RateLimiterConfig`; `Expiration` is the field
`MemoryStoreConfig.Expiration`. -/
structure RateLimiterConfig where
  Enable : Bool
  AllowedPathPrefixes : List String
  SkippedPathPrefixes : List String
  Period : Int
  MaxRequestsPerIP : Int
  MaxRequestsPerUser : Int
  Expiration : Int

/-- What the rate limiter reads of a request: the path (`c.Request.URL.Path`),
the user id of its context (`util.FromUserID(ctx)`, empty when there is none)
and the address of the client (`c.ClientIP()`). -/
structure Request where
  Path : String
  UserID : String
  ClientIP : String
  deriving DecidableEq, Repr

/-- What the middleware does with a request: hand it to the next handler
(`c.Next()`) or answer with an error (`util.ResError(c, err)`). -/
inductive Outcome where
  | Next : Outcome
  | ResError (err : GoError) : Outcome
  deriving DecidableEq, Repr

/-- Modelled from the spec: the check `AllowedPathPrefixes(c, prefixes...)`, which
is not among the sources: with a non-empty list only the paths that start with
one of the prefixes pass; with an empty list every path passes. -/
def AllowedPathPrefixes (path : String) (prefixes : List String) : Bool :=
  prefixes.isEmpty || prefixes.any (fun p => p.data.isPrefixOf path.data)

/-- Modelled from the spec: the check `SkippedPathPrefixes(c, prefixes...)`, which
is not among the sources: the path starts with one of the prefixes. -/
def SkippedPathPrefixes (path : String) (prefixes : List String) : Bool :=
  prefixes.any (fun p => p.data.isPrefixOf path.data)

/-- The handler returned by `RateLimiterWithConfig(config)` when the limiter is
enabled, run at instant `now` on the store it holds. -/
def rateLimiterHandler (config : RateLimiterConfig) (store : RateLimiterMemoryStore)
    (now : Int) (c : Request) : Outcome × RateLimiterMemoryStore :=
  if !AllowedPathPrefixes c.Path config.AllowedPathPrefixes
      || SkippedPathPrefixes c.Path config.SkippedPathPrefixes then
    (Outcome.Next, store)
  else
    let r :=
      if c.UserID ≠ "" then
        store.Allow now c.UserID (time.Seconds config.Period) config.MaxRequestsPerUser
      else
        store.Allow now c.ClientIP (time.Seconds config.Period) config.MaxRequestsPerIP
    match r.1 with
    | (_, some _) =>
      (Outcome.ResError (errors.InternalServerError ""
        "Internal server error, please try again later."), r.2)
    | (true, none) => (Outcome.Next, r.2)
    | (false, none) =>
      (Outcome.ResError (errors.TooManyRequests "" "Too many requests, please try again later."),
        r.2)

/-- The function `RateLimiterWithConfig(config)`: the handler, as a function of the
store it holds, the instant and the request.  A disabled limiter is the handler
`Empty()`, which hands every request to the next handler. -/
def RateLimiterWithConfig (config : RateLimiterConfig) (store : RateLimiterMemoryStore)
    (now : Int) (c : Request) : Outcome × RateLimiterMemoryStore :=
  if !config.Enable then (Outcome.Next, store)
  else rateLimiterHandler config store now c

/-- The store with which the handler of `RateLimiterWithConfig(config)` starts. -/
def initialStore (config : RateLimiterConfig) : RateLimiterMemoryStore :=
  NewRateLimiterMemoryStore config.Expiration

end middleware

/-! ## Part 2c. The middlewares of the record store -/

namespace models

/-- The common fields of the models (`models.BaseModel`). -/
structure BaseModel where
  isNotNew : Bool
  ID : Nat
  Created : Int
  Updated : Int
  deriving DecidableEq, Repr

/-- The method `BaseModel.HasId()`. -/
def BaseModel.HasId (_m : BaseModel) : Bool := true

/-- The method `BaseModel.GetId()`. -/
def BaseModel.GetId (m : BaseModel) : Nat := m.ID

/-- An admin model (`models.Admin`). -/
structure Admin where
  base : BaseModel
  deriving DecidableEq, Repr

/-- A record model (`models.Record`), with the name of its collection
(`record.Collection().Name`). -/
structure Record where
  base : BaseModel
  CollectionName : String
  deriving DecidableEq, Repr

end models

namespace apis

/-- The error of an api handler (`ApiError`), which is not among the sources: a
status code and a message. -/
structure ApiError where
  Code : Nat
  Message : String
  deriving DecidableEq, Repr

/-- The constructor `NewBadRequestError(message, data)`: status 400. -/
def NewBadRequestError (message : String) : ApiError := ⟨400, message⟩

/-- The constructor `NewUnauthorizedError(message, data)`: status 401. -/
def NewUnauthorizedError (message : String) : ApiError := ⟨401, message⟩

/-- The constructor `NewForbiddenError(message, data)`: status 403. -/
def NewForbiddenError (message : String) : ApiError := ⟨403, message⟩

/-- The values of the request context that the middlewares read:
`c.Get(ContextAdminKey).(*models.Admin)` and
`c.Get(ContextAuthRecordKey).(*models.Record)`, `none` for a nil pointer. -/
structure Context where
  admin : Option models.Admin
  authRecord : Option models.Record
  deriving DecidableEq, Repr

/-- What a middleware returns: the result of the next handler (`next(c)`) or an
error of its own. -/
inductive Result where
  | next : Result
  | reject (err : ApiError) : Result
  deriving DecidableEq, Repr

/-- The middleware `RequireGuestOnly()`. -/
def RequireGuestOnly (c : Context) : Result :=
  let err := NewBadRequestError "The request can be accessed only by guests."
  match c.authRecord with
  | some _ => Result.reject err
  | none =>
    match c.admin with
    | some _ => Result.reject err
    | none => Result.next

/-- The middleware `RequireAdminOrRecordAuth(optCollectionNames...)`;
`list.ExistInSlice` is membership in the list. -/
def RequireAdminOrRecordAuth (optCollectionNames : List String) (c : Context) : Result :=
  match c.admin, c.authRecord with
  | none, none =>
    Result.reject (NewUnauthorizedError
      "The request requires admin or record authorization token to be set.")
  | _, some record =>
    if optCollectionNames.length > 0 ∧ ¬ (record.CollectionName ∈ optCollectionNames) then
      Result.reject (NewForbiddenError
        "The authorized record model is not allowed to perform this action.")
    else Result.next
  | some _, none => Result.next

end apis

namespace unicode

/-- The predicate `unicode.IsSpace`: the white space characters of Unicode. -/
def IsSpace (r : Char) : Bool :=
  let n := r.toNat
  n = 9 || n = 10 || n = 11 || n = 12 || n = 13 || n = 32 || n = 133 || n = 160
    || n = 5760 || (8192 ≤ n && n ≤ 8202) || n = 8232 || n = 8233 || n = 8239 || n = 8287
    || n = 12288

end unicode

namespace strings

/-- The pieces of a list of characters between the occurrences of `sep`. -/
def splitChars (sep : Char) : List Char → List (List Char)
  | [] => [[]]
  | c :: cs =>
    if c = sep then [] :: splitChars sep cs
    else
      match splitChars sep cs with
      | [] => [[c]]
      | piece :: pieces => (c :: piece) :: pieces

/-- The function `strings.Split(s, sep)` for a separator of one character: the
substrings of `s` between the separators; a string without separator, also the
empty string, gives one piece. -/
def Split (s : String) (sep : Char) : List String :=
  (splitChars sep s.data).map String.mk

/-- The function `strings.TrimSpace(s)`: `s` without its leading and trailing
white space. -/
def TrimSpace (s : String) : String :=
  String.mk ((s.data.dropWhile unicode.IsSpace).reverse.dropWhile unicode.IsSpace).reverse

end strings

namespace apis

/-- The `return` statement of `realUserIp` that produces the result. -/
inductive IpSource where
  | CFConnectingIP | FlyClientIP | XRealIP | XForwardedFor | Fallback
  deriving DecidableEq, Repr

/-- The loop of `realUserIp` over the entries of `X-Forwarded-For`: the first
entry that is not empty once trimmed, trimmed. -/
def firstNonBlank : List String → Option String
  | [] => none
  | ip :: rest =>
    let ip := strings.TrimSpace ip
    if ip ≠ "" then some ip else firstNonBlank rest

/-- The function `realUserIp(r, fallbackIp)`; `header` is `r.Header.Get`, which
gives the empty string for a header that is not set. -/
def realUserIp (header : String → String) (fallbackIp : String) : String :=
  if header "CF-Connecting-IP" ≠ "" then header "CF-Connecting-IP"
  else if header "Fly-Client-IP" ≠ "" then header "Fly-Client-IP"
  else if header "X-Real-IP" ≠ "" then header "X-Real-IP"
  else
    let ipsList := header "X-Forwarded-For"
    if ipsList ≠ "" then
      -- extract the first non-empty leftmost-ish ip
      match firstNonBlank (strings.Split ipsList ',') with
      | some ip => ip
      | none => fallbackIp
    else fallbackIp

/-- The function `realUserIp` again, with the `return` statement that is reached
next to the result. -/
def realUserIpFrom (header : String → String) (fallbackIp : String) : IpSource × String :=
  if header "CF-Connecting-IP" ≠ "" then (IpSource.CFConnectingIP, header "CF-Connecting-IP")
  else if header "Fly-Client-IP" ≠ "" then (IpSource.FlyClientIP, header "Fly-Client-IP")
  else if header "X-Real-IP" ≠ "" then (IpSource.XRealIP, header "X-Real-IP")
  else
    let ipsList := header "X-Forwarded-For"
    if ipsList ≠ "" then
      match firstNonBlank (strings.Split ipsList ',') with
      | some ip => (IpSource.XForwardedFor, ip)
      | none => (IpSource.Fallback, fallbackIp)
    else (IpSource.Fallback, fallbackIp)

end apis

/-! ## Example surroundings -/

/-- An environment for examples: root `root`/`admin`, every store operation
works, a token is its own subject, a password matches a hash when they are
equal. -/
def exampleEnv : Env where
  RootID := "root"
  RootUsername := "admin"
  RootPassword := "secret"
  AuthDisable := false
  UserCacheExp := 4
  ErrInvalidTokenID := "com.invalid.token"
  ErrInvalidUsernameOrPassword := "com.invalid.username-or-password"
  CacheNSForUser := "user"
  UserStatusActivated := "activated"
  MD5String := fun s => "md5:" ++ s
  CompareHashAndPassword := fun h p => if h = p then none else some (GoError.other "mismatch")
  UserCacheString := fun ids => String.intercalate "," ids
  ParseUserCache := fun s => s.splitOn ","
  verify := fun t => if t = "garbage" then Except.error GoError.ErrInvalidToken else Except.ok t
  GenerateToken := fun id => Except.ok { AccessToken := id, TokenType := "Bearer", ExpiresAt := 0 }
  FillTo := fun f u => Except.ok { u with Username := f.Username, Status := f.Status }
  NewXID := fun n => "x" ++ toString n
  fault := fun _ => none
  GeneratePassword := fun p => if p = "" then Except.error (GoError.other "empty") else Except.ok p

/-- A state for examples: the activated user `u1` (`alice`) and the frozen user
`u2` (`bob`), empty cache. -/
def exampleWorld : World where
  users := [⟨"u1", "alice", "pw1", "activated"⟩, ⟨"u2", "bob", "pw2", "freezed"⟩]
  userRoles := [⟨"r1", "u1", "admins"⟩]
  cache := fun _ _ => none
  destroyed := []
  xids := 0
  trace := []

/-- A request carrying the bearer token `t` and an empty context. -/
def requestWith (t : String) : GinContext :=
  { token := t, ctx := { UserToken := "", UserID := "", IsRootUser := false, UserCache := none } }

/-- The results, among the results `rs` of the calls `cs`, of the calls made for
the identifier `b`. -/
def resultsFor (b : String) (cs : List AllowCall) (rs : List Bool) : List Bool :=
  ((cs.zip rs).filter (fun p => decide (p.1.identifier = b))).map Prod.snd

/-- A store with the default expiration of one minute in which the identifier
`ip` has used up a bucket of three tokens at instant `5`. -/
def exhaustedStore : RateLimiterMemoryStore :=
  (runAllow (NewRateLimiterMemoryStore 60000000000)
    (List.replicate 3 ⟨5, "ip", 1000000000, 3⟩)).2

/-- The example state in which the cache still holds a capability snapshot of
the frozen user `u2`. -/
def staleWorld : World :=
  { exampleWorld with
    cache := fun ns key =>
      if ns = "user" ∧ key = "u2" then some { value := "admins", ttl := none } else none }

/-- The example environment in which `Cacher.Delete` fails and every other
operation works. -/
def failingDeleteEnv : Env :=
  { exampleEnv with
    fault := fun op => if op = Op.CacheDelete then some (GoError.other "cache down") else none }

/-- The example environment in which the token service fails with an error
other than `ErrInvalidToken`. -/
def tokenServiceDownEnv : Env :=
  { exampleEnv with verify := fun _ => Except.error (GoError.other "token store down") }

/-- The example environment in which `dal.User.Get` fails. -/
def userGetDownEnv : Env :=
  { exampleEnv with
    fault := fun op => if op = Op.UserGet then some (GoError.other "db down") else none }

/-- The example environment in which the user-role query fails. -/
def roleQueryDownEnv : Env :=
  { exampleEnv with
    fault := fun op => if op = Op.UserRoleQuery then some (GoError.other "db down") else none }

/-- The example environment with authentication disabled. -/
def authDisabledEnv : Env := { exampleEnv with AuthDisable := true }

/-- The example environment in which `Cacher.Set` fails and every other
operation works. -/
def failingSetEnv : Env :=
  { exampleEnv with
    fault := fun op => if op = Op.CacheSet then some (GoError.other "cache down") else none }

/-- The example environment in which `Auther.DestroyToken` fails. -/
def destroyDownEnv : Env :=
  { exampleEnv with
    fault := fun op =>
      if op = Op.DestroyToken then some (GoError.other "token store down") else none }

/-- The context of a request of the user `userID` authenticated by `token`. -/
def contextOf (token : String) (userID : String) : Ctx :=
  { UserToken := token, UserID := userID, IsRootUser := false, UserCache := none }

/-- The example state with a stored, frozen user that bears the root username
`admin`. -/
def shadowWorld : World :=
  { exampleWorld with users := [⟨"u3", "admin", "pw3", "freezed"⟩] }

/-- A limiter configuration for examples: the paths under `/api` are limited,
except those under `/api/v1/login`; one second, three requests for an address,
five for a user. -/
def exampleLimiterConfig : middleware.RateLimiterConfig where
  Enable := true
  AllowedPathPrefixes := ["/api"]
  SkippedPathPrefixes := ["/api/v1/login"]
  Period := 1
  MaxRequestsPerIP := 3
  MaxRequestsPerUser := 5
  Expiration := 60000000000

/-- The headers of a request that carries only `X-Forwarded-For`. -/
def forwardedFor (value : String) : String → String :=
  fun key => if key = "X-Forwarded-For" then value else ""

/-! ## Part 3. Theorems on the rate limiter -/

namespace gocache

theorem Get_SetDefault_self {α : Type} (c : Cache α) (now : Int) (k : String) (x : α) :
    (c.SetDefault now k x).Get now k = some x := by
  unfold Cache.Get Cache.SetDefault
  simp only [if_true]
  split_ifs with h1 h2
  · exfalso; omega
  · rfl
  · exfalso; omega
  · rfl

theorem items_SetDefault_other {α : Type} (c : Cache α) (now : Int) (k j : String) (x : α)
    (h : j ≠ k) : (c.SetDefault now k x).items j = c.items j := by
  simp [Cache.SetDefault, h]

theorem defaultExpiration_SetDefault {α : Type} (c : Cache α) (now : Int) (k : String) (x : α) :
    (c.SetDefault now k x).defaultExpiration = c.defaultExpiration := rfl

end gocache

namespace rate

theorem Every_pos (period : Int) (h : 0 < period) : Every period = Limit.perInterval period := by
  unfold Every
  rw [if_neg (by omega)]

theorem advance_NewLimiter (period n now : Int) :
    (NewLimiter (Limit.perInterval period) n).advance now = n * period := by
  unfold Limiter.advance NewLimiter
  simp only [Limit.cost]
  split_ifs with h1 h2 h3
  · rfl
  · omega
  · rfl
  · omega

theorem Allow_NewLimiter (period n now : Int) (hp : 0 < period) (hn : 0 < n) :
    (NewLimiter (Every period) n).Allow now = (true, bucket period n (n - 1) now) := by
  rw [Every_pos period hp]
  have hadv := advance_NewLimiter period n now
  have hc : 0 ≤ (n - 1) * period := mul_nonneg (by omega) (by omega)
  have he : n * period - period = (n - 1) * period := by ring
  unfold Limiter.Allow
  simp only [NewLimiter, Limit.cost] at hadv ⊢
  have hlt : ¬ ((n - 1) * period < 0) := by omega
  rw [hadv, he, if_neg hlt]
  have hb : (1 : Int) ≤ n := by omega
  simp [hb, bucket]

theorem advance_bucket (period n k now : Int) (hk : k ≤ n) (hp : 0 < period) :
    (bucket period n k now).advance now = k * period := by
  have hc : k * period ≤ n * period := mul_le_mul_of_nonneg_right hk (by omega)
  unfold Limiter.advance bucket
  simp only [Limit.cost, lt_irrefl, if_false, sub_self, add_zero]
  have hgt : ¬ (k * period > n * period) := by omega
  rw [if_neg hgt]

theorem Allow_bucket_succ (period n k now : Int) (hk0 : 0 ≤ k) (hk : k + 1 ≤ n)
    (hp : 0 < period) :
    (bucket period n (k + 1) now).Allow now = (true, bucket period n k now) := by
  have hadv := advance_bucket period n (k + 1) now hk hp
  have hc : 0 ≤ k * period := mul_nonneg hk0 (by omega)
  have he : (k + 1) * period - period = k * period := by ring
  unfold Limiter.Allow
  simp only [bucket] at hadv ⊢
  have hlt : ¬ (k * period < 0) := by omega
  rw [hadv, he, if_neg hlt]
  have hb : (1 : Int) ≤ n := by omega
  simp [hb]

theorem Allow_bucket_zero (period n now : Int) (hn : 0 ≤ n) (hp : 0 < period) :
    (bucket period n 0 now).Allow now = (false, bucket period n 0 now) := by
  have hadv := advance_bucket period n 0 now hn hp
  unfold Limiter.Allow
  simp only [bucket] at hadv ⊢
  rw [hadv]
  simp only [zero_mul, zero_sub]
  have hlt : -period < 0 := by omega
  rw [if_pos hlt]
  have : ¬ (- -period ≤ 0) := by omega
  simp [this, hp]

end rate

theorem Allow_fresh (s : RateLimiterMemoryStore) (now : Int) (identifier : String)
    (period n : Int) (hp : 0 < period) (hn : 0 < n)
    (hnone : s.cache.Get now identifier = none) :
    s.Allow now identifier period n
      = ((true, none),
          { cache := s.cache.SetDefault now identifier (rate.bucket period n (n - 1) now) }) := by
  unfold RateLimiterMemoryStore.Allow
  rw [if_neg (by omega), hnone]
  simp only [rate.Allow_NewLimiter period n now hp hn]

theorem Allow_existing (s : RateLimiterMemoryStore) (now : Int) (identifier : String)
    (period n : Int) (lim : rate.Limiter) (hp : 0 < period) (hn : 0 < n)
    (hsome : s.cache.Get now identifier = some lim) :
    s.Allow now identifier period n
      = (((lim.Allow now).1, none),
          { cache := s.cache.SetDefault now identifier (lim.Allow now).2 }) := by
  unfold RateLimiterMemoryStore.Allow
  rw [if_neg (by omega), hsome]

/-- Draining a bucket of `k` tokens by `k + 1` calls at one instant: `k` calls are
allowed, the last one is denied. -/
theorem runAllow_drain (period n : Int) (now : Int) (identifier : String)
    (hp : 0 < period) (hn : 0 < n) :
    ∀ (k : Nat) (s : RateLimiterMemoryStore), (k : Int) ≤ n →
      s.cache.Get now identifier = some (rate.bucket period n k now) →
      (runAllow s (List.replicate (k + 1) ⟨now, identifier, period, n⟩)).1
        = List.replicate k true ++ [false] := by
  intro k
  induction k with
  | zero =>
    intro s _ hget
    simp only [List.replicate, runAllow, List.nil_append]
    rw [Allow_existing s now identifier period n _ hp hn hget]
    simp only [Nat.cast_zero]
    rw [rate.Allow_bucket_zero period n now (by omega) hp]
  | succ k ih =>
    intro s hk hget
    rw [List.replicate_succ, runAllow]
    simp only
    rw [Allow_existing s now identifier period n _ hp hn hget]
    have hcast : ((k + 1 : Nat) : Int) = (k : Int) + 1 := by push_cast; ring
    rw [hcast, rate.Allow_bucket_succ period n k now (by omega) (by omega) hp]
    simp only
    have hrest := ih { cache := s.cache.SetDefault now identifier (rate.bucket period n k now) }
      (by omega) (gocache.Get_SetDefault_self _ _ _ _)
    rw [hrest]
    rfl

theorem gocache.Get_SetDefault_later {α : Type} (c : gocache.Cache α) (now t : Int)
    (k : String) (x : α)
    (hlive : c.defaultExpiration ≤ 0 ∨ t ≤ now + c.defaultExpiration) :
    (c.SetDefault now k x).Get t k = some x := by
  unfold gocache.Cache.Get gocache.Cache.SetDefault
  simp only [if_true]
  split_ifs with h1 h2
  · exfalso; omega
  · rfl
  · exfalso; omega
  · rfl

theorem rate.advance_bucket_later (period n k now d : Int) (hd : 0 ≤ d) :
    (rate.bucket period n k now).advance (now + d) = min (n * period) (k * period + d) := by
  unfold rate.Limiter.advance rate.bucket
  simp only [rate.Limit.cost]
  have hlt : ¬ (now + d < now) := by omega
  rw [if_neg hlt]
  have he : now + d - now = d := by omega
  rw [he]
  split_ifs with h
  · exact (min_eq_left (le_of_lt h)).symm
  · exact (min_eq_right (not_lt.mp h)).symm

theorem rate.Allow_empty_bucket_early (period n now d : Int) (hn : 0 < n) (hp : 0 < period)
    (hd : 0 ≤ d) (hearly : d < period) :
    ((rate.bucket period n 0 now).Allow (now + d)).1 = false := by
  have hadv := rate.advance_bucket_later period n 0 now d hd
  have hcap : period ≤ n * period := by
    have := mul_le_mul_of_nonneg_right (show (1 : Int) ≤ n by omega) (le_of_lt hp)
    simpa using this
  have hmin : min (n * period) (0 * period + d) = d := by
    rw [zero_mul, zero_add]
    exact min_eq_right (by omega)
  rw [hmin] at hadv
  unfold rate.Limiter.Allow
  simp only [rate.bucket] at hadv ⊢
  rw [hadv]
  have hneg : d - period < 0 := by omega
  rw [if_pos hneg]
  have hw : ¬ (-(d - period) ≤ 0) := by omega
  have hno : ¬ (1 ≤ n ∧ period ≤ d) := by omega
  simp [hw, hno]

theorem rate.Allow_empty_bucket_refilled (period n now d : Int) (hn : 0 < n) (hp : 0 < period)
    (hlate : period ≤ d) :
    ((rate.bucket period n 0 now).Allow (now + d)).1 = true := by
  have hadv := rate.advance_bucket_later period n 0 now d (by omega)
  have hcap : period ≤ n * period := by
    have := mul_le_mul_of_nonneg_right (show (1 : Int) ≤ n by omega) (le_of_lt hp)
    simpa using this
  have hge : period ≤ min (n * period) (0 * period + d) := by
    rw [zero_mul, zero_add]
    exact le_min hcap hlate
  unfold rate.Limiter.Allow
  simp only [rate.bucket] at hadv ⊢
  rw [hadv]
  have hnn : ¬ (min (n * period) (0 * period + d) - period < 0) := by omega
  rw [if_neg hnn]
  have hb : (1 : Int) ≤ n := by omega
  simp [hb]

theorem runAllow_append (s : RateLimiterMemoryStore) (xs ys : List AllowCall) :
    runAllow s (xs ++ ys)
      = ((runAllow s xs).1 ++ (runAllow (runAllow s xs).2 ys).1,
         (runAllow (runAllow s xs).2 ys).2) := by
  induction xs generalizing s with
  | nil => rfl
  | cons c cs ih =>
    show runAllow s (c :: (cs ++ ys)) = _
    simp only [runAllow]
    rw [ih]
    rfl

/-- Using up a bucket of `k` tokens by `k` calls at one instant: all are allowed
and the store ends with the empty bucket, written at that instant. -/
theorem runAllow_use_up (period n : Int) (now : Int) (identifier : String)
    (hp : 0 < period) (hn : 0 < n) :
    ∀ (k : Nat) (c : gocache.Cache rate.Limiter), (k : Int) ≤ n →
      ∃ c' : gocache.Cache rate.Limiter, c'.defaultExpiration = c.defaultExpiration
        ∧ runAllow { cache := c.SetDefault now identifier (rate.bucket period n k now) }
            (List.replicate k ⟨now, identifier, period, n⟩)
          = (List.replicate k true,
             { cache := c'.SetDefault now identifier (rate.bucket period n 0 now) }) := by
  intro k
  induction k with
  | zero =>
    intro c _
    exact ⟨c, rfl, by simp [runAllow]⟩
  | succ k ih =>
    intro c hk
    have hget : (c.SetDefault now identifier
        (rate.bucket period n ((k + 1 : Nat) : Int) now)).Get now identifier
        = some (rate.bucket period n ((k + 1 : Nat) : Int) now) :=
      gocache.Get_SetDefault_self _ _ _ _
    have hcast : ((k + 1 : Nat) : Int) = (k : Int) + 1 := by push_cast; ring
    obtain ⟨c', hc', hrun⟩ := ih
      (c.SetDefault now identifier (rate.bucket period n ((k + 1 : Nat) : Int) now))
      (by omega)
    refine ⟨c', by rw [hc']; rfl, ?_⟩
    rw [List.replicate_succ, runAllow]
    simp only
    rw [Allow_existing
      { cache := c.SetDefault now identifier (rate.bucket period n ((k + 1 : Nat) : Int) now) }
      now identifier period n _ hp hn hget]
    rw [hcast, rate.Allow_bucket_succ period n k now (by omega) (by omega) hp]
    simp only
    rw [hcast] at hrun
    rw [hrun]
    rfl

/-- C4 (counterexample).  With period = 3 s and maxRequests = 3 the bucket created
by `Allow` refills one token every 3 s, not every period/maxRequests = 1 s: once
its three tokens are used at instant 0, calls after 1 s and after 2.999999999 s
are denied, and the next call is allowed only after a full period. -/
theorem C4_refill_interval_is_not_period_over_max :
    (((NewRateLimiterMemoryStore 60000000000).Allow 0 "ip" 3000000000 3).2.cache.Get 0 "ip").map
        rate.Limiter.limit = some (rate.Limit.perInterval 3000000000)
    ∧ rate.Limit.perInterval 3000000000 ≠ rate.Limit.perInterval (3000000000 / 3)
    ∧ (runAllow (NewRateLimiterMemoryStore 60000000000)
        [⟨0, "ip", 3000000000, 3⟩, ⟨0, "ip", 3000000000, 3⟩, ⟨0, "ip", 3000000000, 3⟩,
         ⟨1000000000, "ip", 3000000000, 3⟩, ⟨2999999999, "ip", 3000000000, 3⟩,
         ⟨3000000000, "ip", 3000000000, 3⟩]).1 = [true, true, true, false, false, true] := by
  decide

/-- C4 (amended).  For every period > 0 and maxRequests > 0, the bucket that
`Allow` creates for an identifier without a bucket has burst capacity maxRequests
and the limit `rate.Every(period)`, and it is stored with maxRequests - 1 tokens
left.  It refills one token every period: the credit of the created bucket grows
by the elapsed time, one token being worth one period, up to the burst; and once
maxRequests calls at the instant of creation have used the bucket up, a further
call d nanoseconds later, the bucket not being evicted meanwhile, is denied when
d + 1 < period and allowed when d >= period (the one instant d = period - 1 is
left to the rounding of the library). -/
theorem C4_created_bucket_burst_and_rate (s : RateLimiterMemoryStore) (now : Int)
    (identifier : String) (period maxRequests : Int)
    (hp : 0 < period) (hm : 0 < maxRequests)
    (hnone : s.cache.Get now identifier = none) :
    (s.Allow now identifier period maxRequests).2.cache.Get now identifier
      = some { limit := rate.Every period, burst := maxRequests,
               credit := (maxRequests - 1) * period, last := now }
    ∧ rate.Every period = rate.Limit.perInterval period
    ∧ (∀ d : Int, 0 ≤ d →
        (rate.bucket period maxRequests (maxRequests - 1) now).advance (now + d)
          = min (maxRequests * period) ((maxRequests - 1) * period + d))
    ∧ (∀ d : Int, 0 ≤ d →
        (s.cache.defaultExpiration ≤ 0 ∨ d ≤ s.cache.defaultExpiration) →
        (d + 1 < period →
          (runAllow s (List.replicate maxRequests.toNat ⟨now, identifier, period, maxRequests⟩
              ++ [⟨now + d, identifier, period, maxRequests⟩])).1
            = List.replicate maxRequests.toNat true ++ [false])
        ∧ (period ≤ d →
          (runAllow s (List.replicate maxRequests.toNat ⟨now, identifier, period, maxRequests⟩
              ++ [⟨now + d, identifier, period, maxRequests⟩])).1
            = List.replicate maxRequests.toNat true ++ [true])) := by
  have hfresh := Allow_fresh s now identifier period maxRequests hp hm hnone
  refine ⟨?_, rate.Every_pos period hp, ?_, ?_⟩
  · rw [hfresh]
    simp only [gocache.Get_SetDefault_self, rate.bucket, rate.Every_pos period hp]
  · intro d hd
    exact rate.advance_bucket_later period maxRequests (maxRequests - 1) now d hd
  · intro d hd hlive
    obtain ⟨m, hmn⟩ : ∃ m : Nat, maxRequests.toNat = m + 1 :=
      ⟨maxRequests.toNat - 1, by omega⟩
    have hmcast : (m : Int) = maxRequests - 1 := by omega
    obtain ⟨c', hc', hrun⟩ := runAllow_use_up period maxRequests now identifier hp hm m s.cache
      (by omega)
    have hfirst : runAllow s (List.replicate maxRequests.toNat
          ⟨now, identifier, period, maxRequests⟩)
        = (List.replicate maxRequests.toNat true,
           { cache := c'.SetDefault now identifier (rate.bucket period maxRequests 0 now) }) := by
      rw [hmn, List.replicate_succ, runAllow]
      simp only
      rw [hfresh, ← hmcast]
      simp only
      rw [hrun]
      rfl
    have hget : (c'.SetDefault now identifier (rate.bucket period maxRequests 0 now)).Get
        (now + d) identifier = some (rate.bucket period maxRequests 0 now) := by
      apply gocache.Get_SetDefault_later
      rw [hc']
      rcases hlive with h | h
      · exact Or.inl h
      · exact Or.inr (by omega)
    have hlast := Allow_existing
      { cache := c'.SetDefault now identifier (rate.bucket period maxRequests 0 now) }
      (now + d) identifier period maxRequests _ hp hm hget
    constructor
    · intro hearly
      rw [runAllow_append, hfirst]
      simp only [runAllow, hlast]
      rw [rate.Allow_empty_bucket_early period maxRequests now d hm hp hd (by omega)]
    · intro hlate
      rw [runAllow_append, hfirst]
      simp only [runAllow, hlast]
      rw [rate.Allow_empty_bucket_refilled period maxRequests now d hm hp hlate]

/-- C4 (witness).  The amended statement at period = 3 s, maxRequests = 3, on an
empty store: the three tokens are used at instant 0, a call 1 s later is denied
and a call 3 s later is allowed. -/
theorem C4_created_bucket_burst_and_rate_witness :
    ((NewRateLimiterMemoryStore 60000000000).Allow 0 "ip" 3000000000 3).2.cache.Get 0 "ip"
      = some { limit := rate.Every 3000000000, burst := 3,
               credit := (3 - 1) * 3000000000, last := 0 }
    ∧ (runAllow (NewRateLimiterMemoryStore 60000000000)
        (List.replicate (3 : Int).toNat ⟨0, "ip", 3000000000, 3⟩
          ++ [⟨0 + 1000000000, "ip", 3000000000, 3⟩])).1
      = List.replicate (3 : Int).toNat true ++ [false]
    ∧ (runAllow (NewRateLimiterMemoryStore 60000000000)
        (List.replicate (3 : Int).toNat ⟨0, "ip", 3000000000, 3⟩
          ++ [⟨0 + 3000000000, "ip", 3000000000, 3⟩])).1
      = List.replicate (3 : Int).toNat true ++ [true] :=
  ⟨(C4_created_bucket_burst_and_rate (NewRateLimiterMemoryStore 60000000000) 0 "ip"
      3000000000 3 (by decide) (by decide) (by rfl)).1,
   ((C4_created_bucket_burst_and_rate (NewRateLimiterMemoryStore 60000000000) 0 "ip"
      3000000000 3 (by decide) (by decide) (by rfl)).2.2.2 1000000000 (by decide)
      (Or.inr (by decide))).1 (by decide),
   ((C4_created_bucket_burst_and_rate (NewRateLimiterMemoryStore 60000000000) 0 "ip"
      3000000000 3 (by decide) (by decide) (by rfl)).2.2.2 3000000000 (by decide)
      (Or.inr (by decide))).2 (by decide)⟩

/-- C5.  For every period > 0, every n = maxRequests > 0 and every identifier
without a bucket, n + 1 `Allow` calls made at one instant return allowed for the
first n calls and denied for the last one; the first call leaves n - 1 tokens in
the bucket, so it consumes exactly one token. -/
theorem C5_burst_then_deny (s : RateLimiterMemoryStore) (now : Int) (identifier : String)
    (period : Int) (n : Nat) (hp : 0 < period) (hn : 0 < n)
    (hnone : s.cache.Get now identifier = none) :
    (runAllow s (List.replicate (n + 1) ⟨now, identifier, period, n⟩)).1
      = List.replicate n true ++ [false]
    ∧ ((s.Allow now identifier period n).2.cache.Get now identifier).map rate.Limiter.credit
      = some (((n : Int) - 1) * period) := by
  have hn' : (0 : Int) < n := by exact_mod_cast hn
  have hfresh := Allow_fresh s now identifier period n hp hn' hnone
  constructor
  · obtain ⟨m, rfl⟩ : ∃ m, n = m + 1 := ⟨n - 1, by omega⟩
    rw [List.replicate_succ, runAllow]
    simp only
    rw [hfresh]
    have hcast : ((m + 1 : Nat) : Int) - 1 = (m : Int) := by push_cast; ring
    rw [hcast]
    have hrest := runAllow_drain period ((m + 1 : Nat) : Int) now identifier hp hn' m
      { cache := s.cache.SetDefault now identifier
          (rate.bucket period ((m + 1 : Nat) : Int) m now) }
      (by push_cast; omega) (gocache.Get_SetDefault_self _ _ _ _)
    rw [hrest]
    rfl
  · rw [hfresh]
    simp only [gocache.Get_SetDefault_self, rate.bucket, Option.map_some']

/-- C5 (witness).  For period = 1 s and maxRequests = 3: allow, allow, allow,
deny. -/
theorem C5_burst_then_deny_witness :
    (runAllow (NewRateLimiterMemoryStore 60000000000)
        (List.replicate (3 + 1) ⟨7, "ip", 1000000000, (3 : Nat)⟩)).1
      = List.replicate 3 true ++ [false]
    ∧ (((NewRateLimiterMemoryStore 60000000000).Allow 7 "ip" 1000000000 (3 : Nat)).2.cache.Get
        7 "ip").map rate.Limiter.credit = some ((((3 : Nat) : Int) - 1) * 1000000000) :=
  C5_burst_then_deny (NewRateLimiterMemoryStore 60000000000) 7 "ip" 1000000000 3
    (by decide) (by decide) (by rfl)

theorem Allow_defaultExpiration (s : RateLimiterMemoryStore) (now : Int) (a : String)
    (period maxRequests : Int) :
    (s.Allow now a period maxRequests).2.cache.defaultExpiration
      = s.cache.defaultExpiration := by
  unfold RateLimiterMemoryStore.Allow
  split_ifs
  · rfl
  · cases s.cache.Get now a <;> rfl

theorem Allow_items_other (s : RateLimiterMemoryStore) (now : Int) (a b : String)
    (period maxRequests : Int) (h : a ≠ b) :
    (s.Allow now a period maxRequests).2.cache.items b = s.cache.items b := by
  have hba : b ≠ a := fun e => h e.symm
  unfold RateLimiterMemoryStore.Allow
  split_ifs
  · rfl
  · cases s.cache.Get now a <;> simp [gocache.Cache.SetDefault, hba]

theorem Allow_same_bucket (s t : RateLimiterMemoryStore) (now : Int) (b : String)
    (period maxRequests : Int)
    (hd : s.cache.defaultExpiration = t.cache.defaultExpiration)
    (hi : s.cache.items b = t.cache.items b) :
    (s.Allow now b period maxRequests).1 = (t.Allow now b period maxRequests).1
    ∧ (s.Allow now b period maxRequests).2.cache.items b
      = (t.Allow now b period maxRequests).2.cache.items b := by
  have hget : s.cache.Get now b = t.cache.Get now b := by
    unfold gocache.Cache.Get
    rw [hi]
  unfold RateLimiterMemoryStore.Allow
  split_ifs
  · exact ⟨rfl, hi⟩
  · rw [hget]
    cases t.cache.Get now b <;> simp [gocache.Cache.SetDefault, hd]

/-- Two stores that hold the same bucket for `b` give the same results to the
calls for `b`, whatever calls for other identifiers the first one also serves. -/
theorem runAllow_frame (b : String) :
    ∀ (cs : List AllowCall) (s t : RateLimiterMemoryStore),
      s.cache.defaultExpiration = t.cache.defaultExpiration →
      s.cache.items b = t.cache.items b →
      resultsFor b cs (runAllow s cs).1
        = (runAllow t (cs.filter (fun c => decide (c.identifier = b)))).1 := by
  intro cs
  induction cs with
  | nil => intro s t _ _; rfl
  | cons c cs ih =>
    intro s t hd hi
    by_cases hc : c.identifier = b
    · have hsame := Allow_same_bucket s t c.now b c.period c.maxRequests hd hi
      have hd' : (s.Allow c.now b c.period c.maxRequests).2.cache.defaultExpiration
          = (t.Allow c.now b c.period c.maxRequests).2.cache.defaultExpiration := by
        rw [Allow_defaultExpiration, Allow_defaultExpiration, hd]
      have hrest := ih _ _ hd' hsame.2
      simp only [resultsFor, runAllow, List.zip_cons_cons, List.filter_cons, hc, decide_True,
        if_true, List.map_cons] at hrest ⊢
      rw [hrest, hsame.1]
    · have hd' : (s.Allow c.now c.identifier c.period c.maxRequests).2.cache.defaultExpiration
          = t.cache.defaultExpiration := by
        rw [Allow_defaultExpiration, hd]
      have hi' : (s.Allow c.now c.identifier c.period c.maxRequests).2.cache.items b
          = t.cache.items b := by
        rw [Allow_items_other s c.now c.identifier b c.period c.maxRequests hc, hi]
      have hrest := ih _ _ hd' hi'
      simp only [resultsFor, runAllow, List.zip_cons_cons, List.filter_cons, hc, decide_False,
        Bool.false_eq_true, if_false] at hrest ⊢
      exact hrest

/-- C6.  For two distinct identifiers a and b, an `Allow` call for a leaves the
bucket of b unchanged, and in every sequence of calls for a and for b the calls
for b get the results they get when the calls for a are left out. -/
theorem C6_buckets_are_isolated (a b : String) (hab : a ≠ b) (s : RateLimiterMemoryStore) :
    (∀ (now period maxRequests : Int),
      (s.Allow now a period maxRequests).2.cache.items b = s.cache.items b)
    ∧ (∀ cs : List AllowCall, (∀ c ∈ cs, c.identifier = a ∨ c.identifier = b) →
        resultsFor b cs (runAllow s cs).1
          = (runAllow s (cs.filter (fun c => decide (c.identifier = b)))).1) :=
  ⟨fun now period maxRequests => Allow_items_other s now a b period maxRequests hab,
   fun cs _ => runAllow_frame b cs s s rfl rfl⟩

/-- C6 (witness).  Four calls for `ip1`, which use up its bucket, interleaved
with two calls for `ip2`. -/
theorem C6_buckets_are_isolated_witness :
    "ip1" ≠ "ip2"
    ∧ resultsFor "ip2"
        [⟨0, "ip1", 1000000000, 3⟩, ⟨0, "ip1", 1000000000, 3⟩, ⟨0, "ip2", 1000000000, 1⟩,
         ⟨0, "ip1", 1000000000, 3⟩, ⟨0, "ip1", 1000000000, 3⟩, ⟨0, "ip2", 1000000000, 1⟩]
        (runAllow (NewRateLimiterMemoryStore 60000000000)
          [⟨0, "ip1", 1000000000, 3⟩, ⟨0, "ip1", 1000000000, 3⟩, ⟨0, "ip2", 1000000000, 1⟩,
           ⟨0, "ip1", 1000000000, 3⟩, ⟨0, "ip1", 1000000000, 3⟩, ⟨0, "ip2", 1000000000, 1⟩]).1
      = (runAllow (NewRateLimiterMemoryStore 60000000000)
          [⟨0, "ip2", 1000000000, 1⟩, ⟨0, "ip2", 1000000000, 1⟩]).1 :=
  ⟨by decide,
   (C6_buckets_are_isolated "ip1" "ip2" (by decide) (NewRateLimiterMemoryStore 60000000000)).2
     [⟨0, "ip1", 1000000000, 3⟩, ⟨0, "ip1", 1000000000, 3⟩, ⟨0, "ip2", 1000000000, 1⟩,
      ⟨0, "ip1", 1000000000, 3⟩, ⟨0, "ip1", 1000000000, 3⟩, ⟨0, "ip2", 1000000000, 1⟩]
     (by decide)⟩

/-- C7.  For every identifier and every store, `Allow` with period <= 0 or
maxRequests <= 0 returns (allowed = true, error = nil) and leaves the store as it
is, also when the identifier has used up its bucket. -/
theorem C7_nonpositive_arguments_disable_limiting (s : RateLimiterMemoryStore) (now : Int)
    (identifier : String) (period maxRequests : Int)
    (h : period ≤ 0 ∨ maxRequests ≤ 0) :
    s.Allow now identifier period maxRequests = ((true, none), s) := by
  unfold RateLimiterMemoryStore.Allow
  rw [if_pos h]

/-- C7 (witness).  The identifier `ip` has used up its bucket at instant 5: a
call with maxRequests = 3 is denied, a call with period = 0 is allowed and
changes nothing. -/
theorem C7_nonpositive_arguments_disable_limiting_witness :
    ((0 : Int) ≤ 0 ∨ (3 : Int) ≤ 0)
    ∧ (exhaustedStore.Allow 5 "ip" 1000000000 3).1 = (false, none)
    ∧ exhaustedStore.Allow 5 "ip" 0 3 = ((true, none), exhaustedStore) :=
  ⟨by decide, by decide,
   C7_nonpositive_arguments_disable_limiting exhaustedStore 5 "ip" 0 3 (by decide)⟩

/-! ## Part 4. Theorems on the session manager -/

@[simp] theorem World.log_users (w : World) (c : Call) : (w.log c).users = w.users := rfl

@[simp] theorem World.log_userRoles (w : World) (c : Call) :
    (w.log c).userRoles = w.userRoles := rfl

@[simp] theorem World.log_cache (w : World) (c : Call) : (w.log c).cache = w.cache := rfl

@[simp] theorem World.log_destroyed (w : World) (c : Call) :
    (w.log c).destroyed = w.destroyed := rfl

@[simp] theorem World.log_xids (w : World) (c : Call) : (w.log c).xids = w.xids := rfl

@[simp] theorem World.log_trace (w : World) (c : Call) :
    (w.log c).trace = w.trace ++ [c] := rfl

theorem selectFields_status (u : User) : (User.selectFields ["status"] u).Status = u.Status := by
  simp [User.selectFields]

theorem selectFields_login (u : User) :
    (User.selectFields ["id", "password", "status"] u)
      = { ID := u.ID, Username := "", Password := u.Password, Status := u.Status } := by
  simp [User.selectFields]

/-- C1 (counterexample).  In the example state `nobody` is no stored user and
`alice` is an activated user whose password is not `wrong`: the two logins fail
with the same kind and id but with the messages "Incorrect username" and
"Incorrect password". -/
theorem C1_unknown_username_and_wrong_password_messages_differ :
    "nobody" ≠ exampleEnv.RootUsername
    ∧ exampleWorld.users.find? (fun u => u.Username = "nobody") = none
    ∧ exampleWorld.users.find? (fun u => u.Username = "alice")
        = some ⟨"u1", "alice", "pw1", "activated"⟩
    ∧ exampleEnv.CompareHashAndPassword "pw1" "wrong" ≠ none
    ∧ (biz.Login.Login exampleEnv exampleWorld ⟨"nobody", "wrong"⟩).1
        = (none, some (errors.BadRequest "com.invalid.username-or-password" "Incorrect username"))
    ∧ (biz.Login.Login exampleEnv exampleWorld ⟨"alice", "wrong"⟩).1
        = (none, some (errors.BadRequest "com.invalid.username-or-password" "Incorrect password"))
    ∧ (biz.Login.Login exampleEnv exampleWorld ⟨"nobody", "wrong"⟩).1
        ≠ (biz.Login.Login exampleEnv exampleWorld ⟨"alice", "wrong"⟩).1 := by
  decide

/-- C1 (amended).  For every user-store state, a login with a non-root username
that matches no stored user and a login with the username of a stored, activated
user plus a password that fails verification return errors of the same kind
(BadRequest) and the same id (InvalidUsernameOrPassword); the messages are
"Incorrect username" and "Incorrect password". -/
theorem C1_login_failures_share_kind_and_id (env : Env) (w : World)
    (unknown known : LoginForm) (user : User)
    (hru : unknown.Username ≠ env.RootUsername) (hrk : known.Username ≠ env.RootUsername)
    (hok : env.fault Op.UserGetByUsername = none)
    (habsent : w.users.find? (fun u => u.Username = unknown.Username) = none)
    (hpresent : w.users.find? (fun u => u.Username = known.Username) = some user)
    (hact : user.Status = env.UserStatusActivated)
    (hbad : env.CompareHashAndPassword user.Password known.Password ≠ none) :
    (biz.Login.Login env w unknown).1
      = (none, some (errors.BadRequest env.ErrInvalidUsernameOrPassword "Incorrect username"))
    ∧ (biz.Login.Login env w known).1
      = (none, some (errors.BadRequest env.ErrInvalidUsernameOrPassword "Incorrect password")) := by
  constructor
  · simp [biz.Login.Login, hru, dal.User.GetByUsername, hok, habsent]
  · obtain ⟨e, he⟩ := Option.ne_none_iff_exists'.mp hbad
    simp [biz.Login.Login, hrk, dal.User.GetByUsername, hok, hpresent, selectFields_login,
      hact, hash.CompareHashAndPassword, he]

/-- C1 (witness).  The amended statement in the example state, for `nobody` and
for `alice` with the password `wrong`. -/
theorem C1_login_failures_share_kind_and_id_witness :
    (biz.Login.Login exampleEnv exampleWorld ⟨"nobody", "wrong"⟩).1
      = (none, some (errors.BadRequest exampleEnv.ErrInvalidUsernameOrPassword
          "Incorrect username"))
    ∧ (biz.Login.Login exampleEnv exampleWorld ⟨"alice", "wrong"⟩).1
      = (none, some (errors.BadRequest exampleEnv.ErrInvalidUsernameOrPassword
          "Incorrect password")) :=
  C1_login_failures_share_kind_and_id exampleEnv exampleWorld ⟨"nobody", "wrong"⟩
    ⟨"alice", "wrong"⟩ ⟨"u1", "alice", "pw1", "activated"⟩
    (by decide) (by decide) rfl (by decide) (by decide) rfl (by decide)

theorem jwtx.ParseSubject_eq (env : Env) (w : World) (t : String) (r : Except GoError String)
    (h : (jwtx.ParseSubject env w t).1 = r) :
    jwtx.ParseSubject env w t = (r, w.log (Call.ParseSubject t)) := by
  unfold jwtx.ParseSubject at h ⊢
  simp only at h ⊢
  split_ifs at h ⊢ <;> simp_all

/-- C2 (counterexample).  In the example state with a stale snapshot, the user
`u2` is frozen and is not the root, the token `u2` parses to `u2`, and
`ParseUserID` returns `u2` without error. -/
theorem C2_stale_cache_entry_resolves_deactivated_user :
    "u2" ≠ exampleEnv.RootID
    ∧ staleWorld.users.find? (fun u => u.ID = "u2") = some ⟨"u2", "bob", "pw2", "freezed"⟩
    ∧ "freezed" ≠ exampleEnv.UserStatusActivated
    ∧ (jwtx.ParseSubject exampleEnv staleWorld "u2").1 = Except.ok "u2"
    ∧ (staleWorld.cache exampleEnv.CacheNSForUser "u2").isSome = true
    ∧ (biz.Login.ParseUserID exampleEnv staleWorld (requestWith "u2")).1 = ("u2", none) :=
  ⟨by decide, by decide, by decide, rfl, by decide, by decide⟩

/-- C2 (amended).  For every non-root user id u whose persisted status is not
Activated, `ParseUserID` called with a token that parses to u, the cache lookup
working: when the capability cache holds no entry for u and the status lookup
works, it fails with Unauthorized after the calls `ParseSubject`, `Cacher.Get` and
`User.Get`; when the cache still holds an entry for u, it returns u with the
cached snapshot attached, and the only calls it makes are `ParseSubject` and
`Cacher.Get`, so the persisted status is not read. -/
theorem C2_deactivated_user_rejected_on_cache_miss (env : Env) (w : World) (c : GinContext)
    (u : String) (user : User)
    (hen : env.AuthDisable = false) (htok : c.token ≠ "")
    (hparse : (jwtx.ParseSubject env w c.token).1 = Except.ok u)
    (hroot : u ≠ env.RootID)
    (hcg : env.fault Op.CacheGet = none)
    (huser : w.users.find? (fun x => x.ID = u) = some user)
    (hst : user.Status ≠ env.UserStatusActivated) :
    (w.cache env.CacheNSForUser u = none → env.fault Op.UserGet = none →
      biz.Login.ParseUserID env w c
        = (("", some (errors.Unauthorized env.ErrInvalidTokenID "Invalid access token")), c,
           { w with trace := w.trace ++ [Call.ParseSubject c.token,
               Call.CacheGet env.CacheNSForUser u, Call.UserGet u ["status"]] }))
    ∧ (∀ entry, w.cache env.CacheNSForUser u = some entry →
      biz.Login.ParseUserID env w c
        = ((u, none),
           { c with ctx := { c.ctx with UserToken := c.token,
                                        UserCache := some (env.ParseUserCache entry.value) } },
           { w with trace := w.trace ++ [Call.ParseSubject c.token,
               Call.CacheGet env.CacheNSForUser u] })) := by
  have hp := jwtx.ParseSubject_eq env w c.token _ hparse
  constructor
  · intro hmiss hug
    simp [biz.Login.ParseUserID, hen, htok, hp, hroot, cachex.Get, hcg, hmiss, dal.User.Get,
      hug, huser, selectFields_status, hst, World.log]
  · intro entry hhit
    simp [biz.Login.ParseUserID, hen, htok, hp, hroot, cachex.Get, hcg, hhit, World.log]

/-- C2 (witness).  The frozen user `u2` of the example state: rejected with an
empty cache after the status lookup; resolved with the stale snapshot `admins`
after `ParseSubject` and `Cacher.Get` only. -/
theorem C2_deactivated_user_rejected_on_cache_miss_witness :
    biz.Login.ParseUserID exampleEnv exampleWorld (requestWith "u2")
      = (("", some (errors.Unauthorized exampleEnv.ErrInvalidTokenID "Invalid access token")),
         requestWith "u2",
         { exampleWorld with trace := exampleWorld.trace ++ [Call.ParseSubject "u2",
             Call.CacheGet exampleEnv.CacheNSForUser "u2", Call.UserGet "u2" ["status"]] })
    ∧ biz.Login.ParseUserID exampleEnv staleWorld (requestWith "u2")
      = (("u2", none),
         { requestWith "u2" with
           ctx := { (requestWith "u2").ctx with
                    UserToken := "u2", UserCache := some (exampleEnv.ParseUserCache "admins") } },
         { staleWorld with trace := staleWorld.trace ++ [Call.ParseSubject "u2",
             Call.CacheGet exampleEnv.CacheNSForUser "u2"] }) :=
  ⟨(C2_deactivated_user_rejected_on_cache_miss exampleEnv exampleWorld (requestWith "u2") "u2"
      ⟨"u2", "bob", "pw2", "freezed"⟩ rfl (by decide) rfl (by decide) rfl
      (by decide) (by decide)).1 rfl rfl,
   (C2_deactivated_user_rejected_on_cache_miss exampleEnv staleWorld (requestWith "u2") "u2"
      ⟨"u2", "bob", "pw2", "freezed"⟩ rfl (by decide) rfl (by decide) rfl
      (by decide) (by decide)).2 { value := "admins", ttl := none } (by decide)⟩

theorem util.Trans.Exec_fst (env : Env) (w : World) (fn : World → Option GoError × World)
    (hc : env.fault Op.Commit = none) : (util.Trans.Exec env w fn).1 = (fn w).1 := by
  unfold util.Trans.Exec
  rcases hfn : fn w with ⟨r, w1⟩
  cases r <;> simp [hc]

theorem cachex.Delete_fst (env : Env) (w : World) (ns key : String) :
    (cachex.Delete env w ns key).1 = env.fault Op.CacheDelete := by
  unfold cachex.Delete
  cases env.fault Op.CacheDelete <;> rfl

theorem biz.User.createRoles_fst (env : Env) (userID : String)
    (hc : env.fault Op.UserRoleCreate = none) :
    ∀ (roles : List UserRole) (w : World), (biz.User.createRoles env userID w roles).1 = none := by
  intro roles
  induction roles with
  | nil => intro w; rfl
  | cons r rest ih =>
    intro w
    unfold biz.User.createRoles
    by_cases hid : r.ID = "" <;> simp [hid, dal.UserRole.Create, hc, ih]

/-- C3 (counterexample).  In the example state every user-store operation works
and `Cacher.Delete` fails: `User.Update` and `User.Delete` of the user `u1` return
the error of the cache, while they return no error when the cache works. -/
theorem C3_cache_delete_failure_fails_update_and_delete :
    (∀ op, op ≠ Op.CacheDelete → failingDeleteEnv.fault op = none)
    ∧ (biz.User.Update failingDeleteEnv exampleWorld "u1" ⟨"alice", "", "activated", []⟩).1
        = some (GoError.other "cache down")
    ∧ (biz.User.Delete failingDeleteEnv exampleWorld "u1").1 = some (GoError.other "cache down")
    ∧ (biz.User.Update exampleEnv exampleWorld "u1" ⟨"alice", "", "activated", []⟩).1 = none
    ∧ (biz.User.Delete exampleEnv exampleWorld "u1").1 = none :=
  ⟨fun op h => by cases op <;> first | rfl | exact absurd rfl h,
   by decide, by decide, by decide, by decide⟩

/-- C3 (amended).  For every call of `User.Update`, and likewise of `User.Delete`,
in which all user-store reads and writes succeed, the call returns what
`Cacher.Delete` returns: no error when the cache delete succeeds, the error of
the cache delete when it fails. -/
theorem C3_update_and_delete_return_cache_delete_result (env : Env) (w : World) (id : String)
    (formItem : UserForm) (user filled : User)
    (hf : ∀ op, op ≠ Op.CacheDelete → env.fault op = none)
    (huser : w.users.find? (fun u => u.ID = id) = some user)
    (hname : user.Username = formItem.Username
      ∨ w.users.any (fun u => u.Username = formItem.Username) = false)
    (hfill : env.FillTo formItem user = Except.ok filled) :
    (biz.User.Update env w id formItem).1 = env.fault Op.CacheDelete
    ∧ (biz.User.Delete env w id).1 = env.fault Op.CacheDelete := by
  have hcommit := hf Op.Commit (by decide)
  have hget := hf Op.UserGet (by decide)
  have hexn := hf Op.UserExistsUsername (by decide)
  have hex := hf Op.UserExists (by decide)
  have hupd := hf Op.UserUpdate (by decide)
  have hdel := hf Op.UserDelete (by decide)
  have hrd := hf Op.UserRoleDeleteByUserID (by decide)
  have hrc := hf Op.UserRoleCreate (by decide)
  have hany : w.users.any (fun u => u.ID = id) = true := by
    rw [List.any_eq_true]
    have hp : decide (user.ID = id) = true :=
      List.find?_some (p := fun (x : User) => decide (x.ID = id)) huser
    exact ⟨user, List.mem_of_find?_eq_some huser, hp⟩
  constructor
  · unfold biz.User.Update
    simp only [dal.User.Get, hget, World.log_users, huser, User.selectFields, if_true,
      Option.map_some']
    split
    · rename_i err w1 heq
      exfalso
      rcases hname with h | h
      · simp [h] at heq
      · by_cases hu : user.Username = formItem.Username
        · simp [hu] at heq
        · simp [hu, dal.User.ExistsUsername, hexn, h] at heq
    · simp only [hfill]
      rw [util.Trans.Exec_fst env _ _ hcommit]
      simp only [dal.User.Update, hupd, dal.UserRole.DeleteByUserID, hrd]
      split
      · rename_i err w2 heq
        have hnone := congrArg Prod.fst heq
        rw [biz.User.createRoles_fst env filled.ID hrc] at hnone
        simp at hnone
      · exact cachex.Delete_fst env _ _ _
  · unfold biz.User.Delete
    simp only [dal.User.Exists, hex, World.log_users, hany, Bool.not_true, Bool.false_eq_true,
      if_false]
    rw [util.Trans.Exec_fst env _ _ hcommit]
    simp only [dal.User.Delete, hdel, dal.UserRole.DeleteByUserID, hrd]
    exact cachex.Delete_fst env _ _ _

/-- C3 (witness).  The amended statement for the user `u1` of the example state,
with a failing cache delete. -/
theorem C3_update_and_delete_return_cache_delete_result_witness :
    (biz.User.Update failingDeleteEnv exampleWorld "u1" ⟨"alice", "", "activated", []⟩).1
      = failingDeleteEnv.fault Op.CacheDelete
    ∧ (biz.User.Delete failingDeleteEnv exampleWorld "u1").1
      = failingDeleteEnv.fault Op.CacheDelete :=
  C3_update_and_delete_return_cache_delete_result failingDeleteEnv exampleWorld "u1"
    ⟨"alice", "", "activated", []⟩ ⟨"u1", "alice", "pw1", "activated"⟩
    ⟨"u1", "alice", "pw1", "activated"⟩
    (fun op h => by cases op <;> first | rfl | exact absurd rfl h)
    (by decide) (Or.inl rfl) rfl

/-- C8.  With auth enabled, every authentication failure of `ParseUserID` (no
token, `ParseSubject` returning `ErrInvalidToken`, the user absent from the store
on a cache miss, the user not Activated on a cache miss) returns the same pair:
an empty id and the error Unauthorized with id `ErrInvalidTokenID` and message
"Invalid access token"; the request is left as it was. -/
theorem C8_authentication_failures_are_uniform (env : Env) (w : World) (c : GinContext)
    (hen : env.AuthDisable = false)
    (h : c.token = ""
      ∨ (c.token ≠ ""
          ∧ (jwtx.ParseSubject env w c.token).1 = Except.error GoError.ErrInvalidToken)
      ∨ (∃ u, c.token ≠ "" ∧ (jwtx.ParseSubject env w c.token).1 = Except.ok u
          ∧ u ≠ env.RootID
          ∧ env.fault Op.CacheGet = none ∧ w.cache env.CacheNSForUser u = none
          ∧ env.fault Op.UserGet = none
          ∧ (w.users.find? (fun x => x.ID = u) = none
              ∨ ∃ user, w.users.find? (fun x => x.ID = u) = some user
                  ∧ user.Status ≠ env.UserStatusActivated))) :
    (biz.Login.ParseUserID env w c).1
      = ("", some (errors.Unauthorized env.ErrInvalidTokenID "Invalid access token"))
    ∧ (biz.Login.ParseUserID env w c).2.1 = c := by
  rcases h with h | ⟨htok, hparse⟩ | ⟨u, htok, hparse, hroot, hcg, hmiss, hug, hu⟩
  · simp [biz.Login.ParseUserID, hen, h]
  · have hp := jwtx.ParseSubject_eq env w c.token _ hparse
    simp [biz.Login.ParseUserID, hen, htok, hp]
  · have hp := jwtx.ParseSubject_eq env w c.token _ hparse
    rcases hu with habsent | ⟨user, huser, hst⟩
    · simp [biz.Login.ParseUserID, hen, htok, hp, hroot, cachex.Get, hcg, hmiss, dal.User.Get,
        hug, habsent]
    · simp [biz.Login.ParseUserID, hen, htok, hp, hroot, cachex.Get, hcg, hmiss, dal.User.Get,
        hug, huser, selectFields_status, hst]

/-- C8 (witness).  In the example state: a request without token, the token
`garbage` that the token service rejects, the token of the unknown user `u9` and
the token of the frozen user `u2` all get the same answer. -/
theorem C8_authentication_failures_are_uniform_witness :
    ((biz.Login.ParseUserID exampleEnv exampleWorld (requestWith "")).1
        = ("", some (errors.Unauthorized exampleEnv.ErrInvalidTokenID "Invalid access token"))
      ∧ (biz.Login.ParseUserID exampleEnv exampleWorld (requestWith "")).2.1 = requestWith "")
    ∧ ((biz.Login.ParseUserID exampleEnv exampleWorld (requestWith "garbage")).1
        = ("", some (errors.Unauthorized exampleEnv.ErrInvalidTokenID "Invalid access token"))
      ∧ (biz.Login.ParseUserID exampleEnv exampleWorld (requestWith "garbage")).2.1
        = requestWith "garbage")
    ∧ ((biz.Login.ParseUserID exampleEnv exampleWorld (requestWith "u9")).1
        = ("", some (errors.Unauthorized exampleEnv.ErrInvalidTokenID "Invalid access token"))
      ∧ (biz.Login.ParseUserID exampleEnv exampleWorld (requestWith "u9")).2.1
        = requestWith "u9")
    ∧ ((biz.Login.ParseUserID exampleEnv exampleWorld (requestWith "u2")).1
        = ("", some (errors.Unauthorized exampleEnv.ErrInvalidTokenID "Invalid access token"))
      ∧ (biz.Login.ParseUserID exampleEnv exampleWorld (requestWith "u2")).2.1
        = requestWith "u2") :=
  ⟨C8_authentication_failures_are_uniform exampleEnv exampleWorld (requestWith "") rfl
      (Or.inl rfl),
   C8_authentication_failures_are_uniform exampleEnv exampleWorld (requestWith "garbage") rfl
      (Or.inr (Or.inl ⟨by decide, rfl⟩)),
   C8_authentication_failures_are_uniform exampleEnv exampleWorld (requestWith "u9") rfl
      (Or.inr (Or.inr ⟨"u9", by decide, rfl, by decide, rfl, rfl, rfl, Or.inl (by decide)⟩)),
   C8_authentication_failures_are_uniform exampleEnv exampleWorld (requestWith "u2") rfl
      (Or.inr (Or.inr ⟨"u2", by decide, rfl, by decide, rfl, rfl, rfl,
        Or.inr ⟨⟨"u2", "bob", "pw2", "freezed"⟩, by decide, by decide⟩⟩))⟩

/-- C10.  For every token whose `ParseSubject` result is the configured root id,
`ParseUserID` returns the root id without error and sets the root flag on the
request context; the only collaborator called is `ParseSubject`: the cache is
not read, the cache and the user store are not written and the user store is
not queried, whatever they contain. -/
theorem C10_root_token_skips_cache_and_store (env : Env) (w : World) (c : GinContext)
    (hen : env.AuthDisable = false) (htok : c.token ≠ "")
    (hparse : (jwtx.ParseSubject env w c.token).1 = Except.ok env.RootID) :
    biz.Login.ParseUserID env w c
      = ((env.RootID, none),
         { c with ctx := { c.ctx with UserToken := c.token, IsRootUser := true } },
         w.log (Call.ParseSubject c.token))
    ∧ (biz.Login.ParseUserID env w c).2.2.trace = w.trace ++ [Call.ParseSubject c.token]
    ∧ (biz.Login.ParseUserID env w c).2.2.cache = w.cache
    ∧ (biz.Login.ParseUserID env w c).2.2.users = w.users
    ∧ (biz.Login.ParseUserID env w c).2.2.userRoles = w.userRoles := by
  have hp := jwtx.ParseSubject_eq env w c.token _ hparse
  have hmain : biz.Login.ParseUserID env w c
      = ((env.RootID, none),
         { c with ctx := { c.ctx with UserToken := c.token, IsRootUser := true } },
         w.log (Call.ParseSubject c.token)) := by
    simp [biz.Login.ParseUserID, hen, htok, hp]
  rw [hmain]
  exact ⟨rfl, rfl, rfl, rfl, rfl⟩

/-- C10 (witness).  The token `root` in the example state whose cache holds a
snapshot: the root id with the root flag, one call to `ParseSubject`. -/
theorem C10_root_token_skips_cache_and_store_witness :
    biz.Login.ParseUserID exampleEnv staleWorld (requestWith "root")
      = ((exampleEnv.RootID, none),
         { requestWith "root" with
           ctx := { (requestWith "root").ctx with
                    UserToken := (requestWith "root").token, IsRootUser := true } },
         staleWorld.log (Call.ParseSubject (requestWith "root").token))
    ∧ (biz.Login.ParseUserID exampleEnv staleWorld (requestWith "root")).2.2.trace
        = staleWorld.trace ++ [Call.ParseSubject (requestWith "root").token]
    ∧ (biz.Login.ParseUserID exampleEnv staleWorld (requestWith "root")).2.2.cache
        = staleWorld.cache
    ∧ (biz.Login.ParseUserID exampleEnv staleWorld (requestWith "root")).2.2.users
        = staleWorld.users
    ∧ (biz.Login.ParseUserID exampleEnv staleWorld (requestWith "root")).2.2.userRoles
        = staleWorld.userRoles :=
  C10_root_token_skips_cache_and_store exampleEnv staleWorld (requestWith "root") rfl
    (by decide) rfl

/-- C9.  With auth enabled and a token present: an error e of `ParseSubject` other
than `ErrInvalidToken`, an error e of the user-status lookup and an error e of
the role-id lookup are each returned by `ParseUserID` as they are, with an empty
user id and the request left as it was; the calls made are listed, `Cacher.Set`
is not among them and the cache is unchanged. -/
theorem C9_other_errors_propagate_unchanged (env : Env) (w : World) (c : GinContext)
    (e : GoError) (hen : env.AuthDisable = false) (htok : c.token ≠ "") :
    ((jwtx.ParseSubject env w c.token).1 = Except.error e → e ≠ GoError.ErrInvalidToken →
      biz.Login.ParseUserID env w c
        = (("", some e), c, { w with trace := w.trace ++ [Call.ParseSubject c.token] }))
    ∧ (∀ u, (jwtx.ParseSubject env w c.token).1 = Except.ok u → u ≠ env.RootID →
        env.fault Op.CacheGet = none → w.cache env.CacheNSForUser u = none →
        env.fault Op.UserGet = some e →
        biz.Login.ParseUserID env w c
          = (("", some e), c,
             { w with trace := w.trace ++ [Call.ParseSubject c.token,
                 Call.CacheGet env.CacheNSForUser u, Call.UserGet u ["status"]] }))
    ∧ (∀ u user, (jwtx.ParseSubject env w c.token).1 = Except.ok u → u ≠ env.RootID →
        env.fault Op.CacheGet = none → w.cache env.CacheNSForUser u = none →
        env.fault Op.UserGet = none → w.users.find? (fun x => x.ID = u) = some user →
        user.Status = env.UserStatusActivated →
        env.fault Op.UserRoleQuery = some e →
        biz.Login.ParseUserID env w c
          = (("", some e), c,
             { w with trace := w.trace ++ [Call.ParseSubject c.token,
                 Call.CacheGet env.CacheNSForUser u, Call.UserGet u ["status"],
                 Call.UserRoleQuery u] })) := by
  refine ⟨?_, ?_, ?_⟩
  · intro hparse hne
    have hp := jwtx.ParseSubject_eq env w c.token _ hparse
    simp [biz.Login.ParseUserID, hen, htok, hp, hne, World.log]
  · intro u hparse hroot hcg hmiss hug
    have hp := jwtx.ParseSubject_eq env w c.token _ hparse
    simp [biz.Login.ParseUserID, hen, htok, hp, hroot, cachex.Get, hcg, hmiss, dal.User.Get,
      hug, World.log]
  · intro u user hparse hroot hcg hmiss hug huser hact hrq
    have hp := jwtx.ParseSubject_eq env w c.token _ hparse
    simp [biz.Login.ParseUserID, hen, htok, hp, hroot, cachex.Get, hcg, hmiss, dal.User.Get,
      hug, huser, selectFields_status, hact, biz.User.GetRoleIDs, dal.UserRole.Query, hrq,
      World.log]

/-- C9 (witness).  For the activated user `u1` of the example state and the error
`db down` or `token store down`: a failing token service, a failing status
lookup and a failing role lookup. -/
theorem C9_other_errors_propagate_unchanged_witness :
    biz.Login.ParseUserID tokenServiceDownEnv exampleWorld (requestWith "u1")
      = (("", some (GoError.other "token store down")), requestWith "u1",
         { exampleWorld with trace := exampleWorld.trace ++ [Call.ParseSubject "u1"] })
    ∧ biz.Login.ParseUserID userGetDownEnv exampleWorld (requestWith "u1")
      = (("", some (GoError.other "db down")), requestWith "u1",
         { exampleWorld with trace := exampleWorld.trace ++ [Call.ParseSubject "u1",
             Call.CacheGet userGetDownEnv.CacheNSForUser "u1", Call.UserGet "u1" ["status"]] })
    ∧ biz.Login.ParseUserID roleQueryDownEnv exampleWorld (requestWith "u1")
      = (("", some (GoError.other "db down")), requestWith "u1",
         { exampleWorld with trace := exampleWorld.trace ++ [Call.ParseSubject "u1",
             Call.CacheGet roleQueryDownEnv.CacheNSForUser "u1", Call.UserGet "u1" ["status"],
             Call.UserRoleQuery "u1"] }) :=
  ⟨(C9_other_errors_propagate_unchanged tokenServiceDownEnv exampleWorld (requestWith "u1")
      (GoError.other "token store down") rfl (by decide)).1 rfl (by decide),
   (C9_other_errors_propagate_unchanged userGetDownEnv exampleWorld (requestWith "u1")
      (GoError.other "db down") rfl (by decide)).2.1 "u1" rfl (by decide) rfl rfl rfl,
   (C9_other_errors_propagate_unchanged roleQueryDownEnv exampleWorld (requestWith "u1")
      (GoError.other "db down") rfl (by decide)).2.2 "u1" ⟨"u1", "alice", "pw1", "activated"⟩
      rfl (by decide) rfl rfl rfl (by decide) rfl rfl⟩

/-- C11.  When the auth-disabled flag is set, `ParseUserID` returns the
configured root id without error for every request and every state; the
request and the state are returned as they were, so neither the token service
nor the cache nor the user store is called. -/
theorem C11_auth_disabled_returns_root (env : Env) (w : World) (c : GinContext)
    (hdis : env.AuthDisable = true) :
    biz.Login.ParseUserID env w c = ((env.RootID, none), c, w) := by
  simp [biz.Login.ParseUserID, hdis]

/-- C11 (witness).  With authentication disabled, a request with the valid
token `u1`, one with the rejected token `garbage` and one without token all
resolve to `root` and leave the state untouched. -/
theorem C11_auth_disabled_returns_root_witness :
    biz.Login.ParseUserID authDisabledEnv exampleWorld (requestWith "u1")
      = ((authDisabledEnv.RootID, none), requestWith "u1", exampleWorld)
    ∧ biz.Login.ParseUserID authDisabledEnv exampleWorld (requestWith "garbage")
      = ((authDisabledEnv.RootID, none), requestWith "garbage", exampleWorld)
    ∧ biz.Login.ParseUserID authDisabledEnv exampleWorld (requestWith "")
      = ((authDisabledEnv.RootID, none), requestWith "", exampleWorld) :=
  ⟨C11_auth_disabled_returns_root authDisabledEnv exampleWorld (requestWith "u1") rfl,
   C11_auth_disabled_returns_root authDisabledEnv exampleWorld (requestWith "garbage") rfl,
   C11_auth_disabled_returns_root authDisabledEnv exampleWorld (requestWith "") rfl⟩

/-- C12.  On a cache miss for a non-root subject u: if `ParseUserID` succeeds then
the status lookup worked and found u with status Activated; and if the lookup
finds no user, or a user with another status, `ParseUserID` fails with
Unauthorized after the calls `ParseSubject`, `Cacher.Get` and `User.Get` only, so
no role ids are loaded and no cache entry is written. -/
theorem C12_cache_miss_requires_activated_user (env : Env) (w : World) (c : GinContext)
    (u : String)
    (hen : env.AuthDisable = false) (htok : c.token ≠ "")
    (hparse : (jwtx.ParseSubject env w c.token).1 = Except.ok u)
    (hroot : u ≠ env.RootID)
    (hcg : env.fault Op.CacheGet = none) (hmiss : w.cache env.CacheNSForUser u = none) :
    ((biz.Login.ParseUserID env w c).1.2 = none →
      env.fault Op.UserGet = none
      ∧ ∃ user, w.users.find? (fun x => x.ID = u) = some user
          ∧ user.Status = env.UserStatusActivated)
    ∧ (env.fault Op.UserGet = none →
        (w.users.find? (fun x => x.ID = u) = none
          ∨ ∃ user, w.users.find? (fun x => x.ID = u) = some user
              ∧ user.Status ≠ env.UserStatusActivated) →
        biz.Login.ParseUserID env w c
          = (("", some (errors.Unauthorized env.ErrInvalidTokenID "Invalid access token")), c,
             { w with trace := w.trace ++ [Call.ParseSubject c.token,
                 Call.CacheGet env.CacheNSForUser u, Call.UserGet u ["status"]] })) := by
  have hp := jwtx.ParseSubject_eq env w c.token _ hparse
  constructor
  · intro hsucc
    cases hug : env.fault Op.UserGet with
    | some e =>
      simp [biz.Login.ParseUserID, hen, htok, hp, hroot, cachex.Get, hcg, hmiss, dal.User.Get,
        hug] at hsucc
    | none =>
      refine ⟨rfl, ?_⟩
      cases huser : w.users.find? (fun x => x.ID = u) with
      | none =>
        simp [biz.Login.ParseUserID, hen, htok, hp, hroot, cachex.Get, hcg, hmiss,
          dal.User.Get, hug, huser, errors.Unauthorized] at hsucc
      | some user =>
        refine ⟨user, rfl, ?_⟩
        by_contra hst
        simp [biz.Login.ParseUserID, hen, htok, hp, hroot, cachex.Get, hcg, hmiss,
          dal.User.Get, hug, huser, selectFields_status, hst, errors.Unauthorized] at hsucc
  · intro hug hu
    rcases hu with habsent | ⟨user, huser, hst⟩
    · simp [biz.Login.ParseUserID, hen, htok, hp, hroot, cachex.Get, hcg, hmiss, dal.User.Get,
        hug, habsent, World.log]
    · simp [biz.Login.ParseUserID, hen, htok, hp, hroot, cachex.Get, hcg, hmiss, dal.User.Get,
        hug, huser, selectFields_status, hst, World.log]

/-- C12 (witness).  The frozen user `u2` of the example state, with an empty
cache: rejected after three calls. -/
theorem C12_cache_miss_requires_activated_user_witness :
    biz.Login.ParseUserID exampleEnv exampleWorld (requestWith "u2")
      = (("", some (errors.Unauthorized exampleEnv.ErrInvalidTokenID "Invalid access token")),
         requestWith "u2",
         { exampleWorld with trace := exampleWorld.trace ++ [Call.ParseSubject "u2",
             Call.CacheGet exampleEnv.CacheNSForUser "u2", Call.UserGet "u2" ["status"]] }) :=
  (C12_cache_miss_requires_activated_user exampleEnv exampleWorld (requestWith "u2") "u2"
    rfl (by decide) rfl (by decide) rfl rfl).2 rfl
    (Or.inr ⟨⟨"u2", "bob", "pw2", "freezed"⟩, by decide, by decide⟩)

theorem biz.User.GetRoleIDs_eq (env : Env) (w : World) (id : String)
    (hrq : env.fault Op.UserRoleQuery = none) :
    biz.User.GetRoleIDs env w id
      = (Except.ok ((w.userRoles.filter (fun r => r.UserID = id)).map UserRole.RoleID),
         w.log (Call.UserRoleQuery id)) := by
  simp [biz.User.GetRoleIDs, dal.UserRole.Query, hrq]

/-- C13.  On a cache miss for an Activated user u whose role-id lookup returns
`roleIDs` and whose cache write succeeds, `ParseUserID` returns u without error,
attaches `roleIDs` to the request context, and calls `Cacher.Set` once, with the
user namespace, the key u, the serialization of `roleIDs` and no time to live;
afterwards the cache holds that entry. -/
theorem C13_cache_miss_rebuilds_snapshot (env : Env) (w : World) (c : GinContext)
    (u : String) (user : User) (roleIDs : List String)
    (hen : env.AuthDisable = false) (htok : c.token ≠ "")
    (hparse : (jwtx.ParseSubject env w c.token).1 = Except.ok u)
    (hroot : u ≠ env.RootID)
    (hcg : env.fault Op.CacheGet = none) (hmiss : w.cache env.CacheNSForUser u = none)
    (hug : env.fault Op.UserGet = none)
    (huser : w.users.find? (fun x => x.ID = u) = some user)
    (hact : user.Status = env.UserStatusActivated)
    (hroles : (biz.User.GetRoleIDs env w u).1 = Except.ok roleIDs)
    (hcs : env.fault Op.CacheSet = none) :
    biz.Login.ParseUserID env w c
      = ((u, none),
         { c with ctx := { c.ctx with UserToken := c.token, UserCache := some roleIDs } },
         { w with
           trace := w.trace ++ [Call.ParseSubject c.token, Call.CacheGet env.CacheNSForUser u,
             Call.UserGet u ["status"], Call.UserRoleQuery u,
             Call.CacheSet env.CacheNSForUser u (env.UserCacheString roleIDs) none],
           cache := fun n k =>
             if n = env.CacheNSForUser ∧ k = u then
               some { value := env.UserCacheString roleIDs, ttl := none }
             else w.cache n k })
    ∧ (biz.Login.ParseUserID env w c).2.2.cache env.CacheNSForUser u
      = some { value := env.UserCacheString roleIDs, ttl := none } := by
  have hp := jwtx.ParseSubject_eq env w c.token _ hparse
  have hrq : env.fault Op.UserRoleQuery = none := by
    cases h : env.fault Op.UserRoleQuery with
    | none => rfl
    | some e => simp [biz.User.GetRoleIDs, dal.UserRole.Query, h] at hroles
  have hids : (w.userRoles.filter (fun r => r.UserID = u)).map UserRole.RoleID = roleIDs := by
    rw [biz.User.GetRoleIDs_eq env w u hrq] at hroles
    simpa using hroles
  have hmain : biz.Login.ParseUserID env w c
      = ((u, none),
         { c with ctx := { c.ctx with UserToken := c.token, UserCache := some roleIDs } },
         { w with
           trace := w.trace ++ [Call.ParseSubject c.token, Call.CacheGet env.CacheNSForUser u,
             Call.UserGet u ["status"], Call.UserRoleQuery u,
             Call.CacheSet env.CacheNSForUser u (env.UserCacheString roleIDs) none],
           cache := fun n k =>
             if n = env.CacheNSForUser ∧ k = u then
               some { value := env.UserCacheString roleIDs, ttl := none }
             else w.cache n k }) := by
    simp [biz.Login.ParseUserID, hen, htok, hp, hroot, cachex.Get, hcg, hmiss, dal.User.Get,
      hug, huser, selectFields_status, hact, biz.User.GetRoleIDs_eq env _ u hrq, cachex.Set,
      hcs, World.log, hids]
  rw [hmain]
  exact ⟨rfl, by simp⟩

/-- C13 (witness).  The activated user `u1` of the example state, whose only
role is `admins`. -/
theorem C13_cache_miss_rebuilds_snapshot_witness :
    biz.Login.ParseUserID exampleEnv exampleWorld (requestWith "u1")
      = (("u1", none),
         { requestWith "u1" with
           ctx := { (requestWith "u1").ctx with
                    UserToken := (requestWith "u1").token, UserCache := some ["admins"] } },
         { exampleWorld with
           trace := exampleWorld.trace ++ [Call.ParseSubject (requestWith "u1").token,
             Call.CacheGet exampleEnv.CacheNSForUser "u1",
             Call.UserGet "u1" ["status"], Call.UserRoleQuery "u1",
             Call.CacheSet exampleEnv.CacheNSForUser "u1"
               (exampleEnv.UserCacheString ["admins"]) none],
           cache := fun n k =>
             if n = exampleEnv.CacheNSForUser ∧ k = "u1" then
               some { value := exampleEnv.UserCacheString ["admins"], ttl := none }
             else exampleWorld.cache n k })
    ∧ (biz.Login.ParseUserID exampleEnv exampleWorld (requestWith "u1")).2.2.cache
        exampleEnv.CacheNSForUser "u1"
      = some { value := exampleEnv.UserCacheString ["admins"], ttl := none } :=
  C13_cache_miss_rebuilds_snapshot exampleEnv exampleWorld (requestWith "u1") "u1"
    ⟨"u1", "alice", "pw1", "activated"⟩ ["admins"] rfl (by decide) rfl (by decide) rfl rfl rfl
    (by decide) rfl rfl rfl

/-- C14.  For every state, a login with the configured root username leaves the
user store and the cache alone: with a password other than the MD5 hash of the
configured root password it fails with BadRequest(InvalidUsernameOrPassword)
and calls nothing; with that hash it returns what `GenerateToken` returns for the
root id, the generated token or the error of the generation, and calls nothing
else. -/
theorem C14_root_login_skips_store_and_cache (env : Env) (w : World) (formItem : LoginForm)
    (hname : formItem.Username = env.RootUsername) :
    (formItem.Password ≠ env.MD5String env.RootPassword →
      biz.Login.Login env w formItem
        = ((none, some (errors.BadRequest env.ErrInvalidUsernameOrPassword
            "Incorrect password")), w))
    ∧ (formItem.Password = env.MD5String env.RootPassword →
        (∀ token, env.GenerateToken env.RootID = Except.ok token →
          biz.Login.Login env w formItem
            = ((some token, none), { w with trace := w.trace ++ [Call.GenerateToken env.RootID] }))
        ∧ (∀ err, env.GenerateToken env.RootID = Except.error err →
          biz.Login.Login env w formItem
            = ((none, some err),
               { w with trace := w.trace ++ [Call.GenerateToken env.RootID] }))) := by
  refine ⟨?_, ?_⟩
  · intro hpw
    simp [biz.Login.Login, hname, hpw]
  · intro hpw
    refine ⟨?_, ?_⟩
    · intro token hgen
      simp [biz.Login.Login, hname, hpw, biz.Login.genUserToken, hgen, World.log]
    · intro err hgen
      simp [biz.Login.Login, hname, hpw, biz.Login.genUserToken, hgen, World.log]

/-- C14 (witness).  In the example state that stores a frozen user named
`admin`: the root password hash gives the token of `root`, another password
gives BadRequest, and neither call reaches the store or the cache. -/
theorem C14_root_login_skips_store_and_cache_witness :
    biz.Login.Login exampleEnv shadowWorld ⟨"admin", "pw3"⟩
      = ((none, some (errors.BadRequest exampleEnv.ErrInvalidUsernameOrPassword
          "Incorrect password")), shadowWorld)
    ∧ biz.Login.Login exampleEnv shadowWorld ⟨"admin", "md5:secret"⟩
      = ((some { AccessToken := "root", TokenType := "Bearer", ExpiresAt := 0 }, none),
         { shadowWorld with
           trace := shadowWorld.trace ++ [Call.GenerateToken exampleEnv.RootID] }) :=
  ⟨(C14_root_login_skips_store_and_cache exampleEnv shadowWorld ⟨"admin", "pw3"⟩ rfl).1
      (by decide),
   ((C14_root_login_skips_store_and_cache exampleEnv shadowWorld ⟨"admin", "md5:secret"⟩
      rfl).2 (by decide)).1 _ rfl⟩

/-- C15 (counterexample).  The example state stores the frozen user `u3` whose
username is the root username `admin`: a login with that username takes the
root path, so with the root password hash it returns a token and with another
password it fails with the InvalidUsernameOrPassword error. -/
theorem C15_stored_user_with_root_username_takes_root_path :
    shadowWorld.users.find? (fun u => u.Username = "admin")
      = some ⟨"u3", "admin", "pw3", "freezed"⟩
    ∧ "freezed" ≠ exampleEnv.UserStatusActivated
    ∧ (biz.Login.Login exampleEnv shadowWorld ⟨"admin", "md5:secret"⟩).1
      = (some { AccessToken := "root", TokenType := "Bearer", ExpiresAt := 0 }, none)
    ∧ (biz.Login.Login exampleEnv shadowWorld ⟨"admin", "pw3"⟩).1
      = (none, some (errors.BadRequest exampleEnv.ErrInvalidUsernameOrPassword
          "Incorrect password")) := by
  decide

/-- C15 (amended).  For every stored user whose status is not Activated and whose
username is not the configured root username, a login with that username, the
user lookup working, fails with the BadRequest error of empty id and of message
"User status is not activated, please contact the administrator"; the only call
made is the user lookup, so no token is issued and no cache entry is written;
and when the id InvalidUsernameOrPassword is not empty this error has another id
than the InvalidUsernameOrPassword errors. -/
theorem C15_not_activated_login_fails_distinctly (env : Env) (w : World)
    (formItem : LoginForm) (user : User)
    (hname : formItem.Username ≠ env.RootUsername)
    (hgu : env.fault Op.UserGetByUsername = none)
    (huser : w.users.find? (fun u => u.Username = formItem.Username) = some user)
    (hst : user.Status ≠ env.UserStatusActivated) :
    biz.Login.Login env w formItem
      = ((none, some (errors.BadRequest ""
          "User status is not activated, please contact the administrator")),
         { w with trace := w.trace ++
             [Call.UserGetByUsername formItem.Username ["id", "password", "status"]] })
    ∧ (env.ErrInvalidUsernameOrPassword ≠ "" →
        ∀ msg msg', errors.BadRequest "" msg
          ≠ errors.BadRequest env.ErrInvalidUsernameOrPassword msg') := by
  constructor
  · simp [biz.Login.Login, hname, dal.User.GetByUsername, hgu, huser, selectFields_login, hst,
      World.log]
  · intro hid msg msg' h
    simp only [errors.BadRequest, GoError.app.injEq, true_and] at h
    exact hid h.1.symm

/-- C15 (witness).  The frozen user `bob` of the example state. -/
theorem C15_not_activated_login_fails_distinctly_witness :
    biz.Login.Login exampleEnv exampleWorld ⟨"bob", "pw2"⟩
      = ((none, some (errors.BadRequest ""
          "User status is not activated, please contact the administrator")),
         { exampleWorld with trace := exampleWorld.trace ++
             [Call.UserGetByUsername "bob" ["id", "password", "status"]] })
    ∧ (exampleEnv.ErrInvalidUsernameOrPassword ≠ "" →
        ∀ msg msg', errors.BadRequest "" msg
          ≠ errors.BadRequest exampleEnv.ErrInvalidUsernameOrPassword msg') :=
  C15_not_activated_login_fails_distinctly exampleEnv exampleWorld ⟨"bob", "pw2"⟩
    ⟨"u2", "bob", "pw2", "freezed"⟩ (by decide) rfl (by decide) (by decide)

/-- C16.  For every non-root login in which the user is Activated, the password
verifies, the role-id lookup succeeds and token generation succeeds, `Login`
returns the generated token without error whatever `Cacher.Set` returns: for
every result `r` of `Cacher.Set`, no error or any error, the returned pair is
the same. -/
theorem C16_login_ignores_cache_set_failure (env : Env) (w : World) (formItem : LoginForm)
    (user : User) (token : LoginToken)
    (hname : formItem.Username ≠ env.RootUsername)
    (hgu : env.fault Op.UserGetByUsername = none)
    (huser : w.users.find? (fun u => u.Username = formItem.Username) = some user)
    (hact : user.Status = env.UserStatusActivated)
    (hpw : env.CompareHashAndPassword user.Password formItem.Password = none)
    (hrq : env.fault Op.UserRoleQuery = none)
    (hgen : env.GenerateToken user.ID = Except.ok token) :
    ∀ r : Option GoError,
      (biz.Login.Login
        { env with fault := fun op => if op = Op.CacheSet then r else env.fault op }
        w formItem).1 = (some token, none) := by
  intro r
  simp [biz.Login.Login, hname, dal.User.GetByUsername, hgu, huser, selectFields_login, hact,
    hash.CompareHashAndPassword, hpw, biz.User.GetRoleIDs, dal.UserRole.Query, hrq,
    biz.Login.genUserToken, hgen]

/-- C16 (witness).  The login of `alice` in the example state, with a cache
whose `Set` works and with a cache whose `Set` fails. -/
theorem C16_login_ignores_cache_set_failure_witness :
    (biz.Login.Login
        { exampleEnv with
          fault := fun op => if op = Op.CacheSet then none else exampleEnv.fault op }
        exampleWorld ⟨"alice", "pw1"⟩).1
      = (some { AccessToken := "u1", TokenType := "Bearer", ExpiresAt := 0 }, none)
    ∧ (biz.Login.Login
        { exampleEnv with
          fault := fun op =>
            if op = Op.CacheSet then some (GoError.other "cache down") else exampleEnv.fault op }
        exampleWorld ⟨"alice", "pw1"⟩).1
      = (some { AccessToken := "u1", TokenType := "Bearer", ExpiresAt := 0 }, none) :=
  ⟨C16_login_ignores_cache_set_failure exampleEnv exampleWorld ⟨"alice", "pw1"⟩
      ⟨"u1", "alice", "pw1", "activated"⟩ _ (by decide) rfl (by decide) rfl (by decide) rfl rfl
      none,
   C16_login_ignores_cache_set_failure exampleEnv exampleWorld ⟨"alice", "pw1"⟩
      ⟨"u1", "alice", "pw1", "activated"⟩ _ (by decide) rfl (by decide) rfl (by decide) rfl rfl
      (some (GoError.other "cache down"))⟩

theorem jwtx.DestroyToken_fst (env : Env) (w : World) (t : String) :
    (jwtx.DestroyToken env w t).1 = env.fault Op.DestroyToken := by
  unfold jwtx.DestroyToken
  cases env.fault Op.DestroyToken <;> rfl

theorem time.Hours_eq (n : Int) (hlo : -2562047 ≤ n) (hhi : n ≤ 2562047) :
    time.Hours n = n * 3600000000000 := by
  unfold time.Hours
  rw [Int.bmod_def]
  norm_num
  split_ifs <;> omega

/-- C17.  With a cache whose `Set` and `Delete` work: after a successful non-root
login of a user, the cache holds under (user namespace, user id) the
serialization of the role ids of the user, written with the time to live
`time.Duration(UserCacheExp) * time.Hour`, which is UserCacheExp hours as long as
that product fits a `time.Duration`; and after a successful `Logout` for that
user id with a token in the context, run on the state after the login or on
any later state, the cache holds no entry under that key. -/
theorem C17_login_caches_and_logout_deletes (env : Env) (w : World) (formItem : LoginForm)
    (user : User) (ctx : Ctx)
    (hname : formItem.Username ≠ env.RootUsername)
    (huser : w.users.find? (fun u => u.Username = formItem.Username) = some user)
    (hrq : env.fault Op.UserRoleQuery = none)
    (hcs : env.fault Op.CacheSet = none) (hcd : env.fault Op.CacheDelete = none)
    (hlogin : (biz.Login.Login env w formItem).1.2 = none)
    (htok : ctx.UserToken ≠ "") (hid : ctx.UserID = user.ID) :
    (biz.Login.Login env w formItem).2.cache env.CacheNSForUser user.ID
      = some { value := env.UserCacheString
                 ((w.userRoles.filter (fun r => r.UserID = user.ID)).map UserRole.RoleID),
               ttl := some (time.Hours env.UserCacheExp) }
    ∧ (-2562047 ≤ env.UserCacheExp → env.UserCacheExp ≤ 2562047 →
        time.Hours env.UserCacheExp = env.UserCacheExp * 3600000000000)
    ∧ (∀ later : World, (biz.Login.Logout env later ctx).1 = none →
        (biz.Login.Logout env later ctx).2.cache env.CacheNSForUser user.ID = none)
    ∧ ((biz.Login.Logout env (biz.Login.Login env w formItem).2 ctx).1 = none →
        (biz.Login.Logout env (biz.Login.Login env w formItem).2 ctx).2.cache
          env.CacheNSForUser user.ID = none) := by
  have hlogout : ∀ later : World, (biz.Login.Logout env later ctx).1 = none →
      (biz.Login.Logout env later ctx).2.cache env.CacheNSForUser user.ID = none := by
    intro later hout
    cases hdt : env.fault Op.DestroyToken with
    | some e => simp [biz.Login.Logout, htok, jwtx.DestroyToken, hdt] at hout
    | none => simp [biz.Login.Logout, htok, jwtx.DestroyToken, hdt, cachex.Delete, hcd, hid]
  refine ⟨?_, time.Hours_eq env.UserCacheExp, hlogout, hlogout _⟩
  cases hgu : env.fault Op.UserGetByUsername with
  | some e => simp [biz.Login.Login, hname, dal.User.GetByUsername, hgu] at hlogin
  | none =>
    by_cases hact : user.Status = env.UserStatusActivated
    · cases hpw : env.CompareHashAndPassword user.Password formItem.Password with
      | some e =>
        simp [biz.Login.Login, hname, dal.User.GetByUsername, hgu, huser, selectFields_login,
          hact, hash.CompareHashAndPassword, hpw, errors.BadRequest] at hlogin
      | none =>
        simp [biz.Login.Login, hname, dal.User.GetByUsername, hgu, huser, selectFields_login,
          hact, hash.CompareHashAndPassword, hpw, biz.User.GetRoleIDs, dal.UserRole.Query, hrq,
          cachex.Set, hcs, biz.Login.genUserToken]
        cases env.GenerateToken user.ID <;> simp
    · simp [biz.Login.Login, hname, dal.User.GetByUsername, hgu, huser, selectFields_login,
        hact, errors.BadRequest] at hlogin

/-- C17 (witness).  The login of `alice` in the example state, then the logout of
her session `u1`: the snapshot `admins` is cached for four hours and is gone
after the logout. -/
theorem C17_login_caches_and_logout_deletes_witness :
    (biz.Login.Login exampleEnv exampleWorld ⟨"alice", "pw1"⟩).2.cache
        exampleEnv.CacheNSForUser "u1"
      = some { value := "admins", ttl := some 14400000000000 }
    ∧ (biz.Login.Logout exampleEnv (biz.Login.Login exampleEnv exampleWorld ⟨"alice", "pw1"⟩).2
        (contextOf "u1" "u1")).1 = none
    ∧ (biz.Login.Logout exampleEnv (biz.Login.Login exampleEnv exampleWorld ⟨"alice", "pw1"⟩).2
        (contextOf "u1" "u1")).2.cache exampleEnv.CacheNSForUser "u1" = none :=
  ⟨(C17_login_caches_and_logout_deletes exampleEnv exampleWorld ⟨"alice", "pw1"⟩
      ⟨"u1", "alice", "pw1", "activated"⟩ (contextOf "u1" "u1") (by decide) (by decide)
      rfl rfl rfl (by decide) (by decide) rfl).1,
   by decide,
   (C17_login_caches_and_logout_deletes exampleEnv exampleWorld ⟨"alice", "pw1"⟩
      ⟨"u1", "alice", "pw1", "activated"⟩ (contextOf "u1" "u1") (by decide) (by decide)
      rfl rfl rfl (by decide) (by decide) rfl).2.2.2 (by decide)⟩

/-- C18.  `Logout` returns an error exactly when the context holds a non-empty
token and `DestroyToken` fails for it; that error is returned, nothing but
`DestroyToken` is called and the cache is untouched.  Without token it returns
nil and calls nothing.  When `DestroyToken` succeeds it returns nil whatever
`Cacher.Delete` returns. -/
theorem C18_logout_error_iff_destroy_fails (env : Env) (w : World) (ctx : Ctx) :
    (ctx.UserToken = "" → biz.Login.Logout env w ctx = (none, w))
    ∧ (ctx.UserToken ≠ "" → ∀ e, (jwtx.DestroyToken env w ctx.UserToken).1 = some e →
        biz.Login.Logout env w ctx
          = (some e, { w with trace := w.trace ++ [Call.DestroyToken ctx.UserToken] }))
    ∧ (ctx.UserToken ≠ "" → (jwtx.DestroyToken env w ctx.UserToken).1 = none →
        (biz.Login.Logout env w ctx).1 = none
        ∧ (biz.Login.Logout env w ctx).2.trace
          = w.trace ++ [Call.DestroyToken ctx.UserToken,
              Call.CacheDelete env.CacheNSForUser ctx.UserID])
    ∧ ((biz.Login.Logout env w ctx).1 ≠ none
        ↔ ctx.UserToken ≠ "" ∧ (jwtx.DestroyToken env w ctx.UserToken).1 ≠ none) := by
  simp only [jwtx.DestroyToken_fst]
  refine ⟨?_, ?_, ?_, ?_⟩
  · intro h
    simp [biz.Login.Logout, h]
  · intro h e hdt
    simp [biz.Login.Logout, h, jwtx.DestroyToken, hdt, World.log]
  · intro h hdt
    constructor
    · simp [biz.Login.Logout, h, jwtx.DestroyToken, hdt]
    · cases hcd : env.fault Op.CacheDelete <;>
        simp [biz.Login.Logout, h, jwtx.DestroyToken, hdt, cachex.Delete, hcd]
  · by_cases h : ctx.UserToken = ""
    · simp [biz.Login.Logout, h]
    · cases hdt : env.fault Op.DestroyToken <;>
        simp [biz.Login.Logout, h, jwtx.DestroyToken, hdt]

/-- C18 (witness).  In the example state: a logout without token, a logout whose
`DestroyToken` fails, and a logout whose `DestroyToken` succeeds while
`Cacher.Delete` fails. -/
theorem C18_logout_error_iff_destroy_fails_witness :
    biz.Login.Logout exampleEnv exampleWorld (contextOf "" "u1") = (none, exampleWorld)
    ∧ biz.Login.Logout destroyDownEnv exampleWorld (contextOf "u1" "u1")
      = (some (GoError.other "token store down"),
         { exampleWorld with trace := exampleWorld.trace ++ [Call.DestroyToken "u1"] })
    ∧ ((biz.Login.Logout failingDeleteEnv exampleWorld (contextOf "u1" "u1")).1 = none
      ∧ (biz.Login.Logout failingDeleteEnv exampleWorld (contextOf "u1" "u1")).2.trace
        = exampleWorld.trace ++ [Call.DestroyToken "u1",
            Call.CacheDelete failingDeleteEnv.CacheNSForUser "u1"]) :=
  ⟨(C18_logout_error_iff_destroy_fails exampleEnv exampleWorld (contextOf "" "u1")).1 rfl,
   (C18_logout_error_iff_destroy_fails destroyDownEnv exampleWorld (contextOf "u1" "u1")).2.1
      (by decide) _ rfl,
   (C18_logout_error_iff_destroy_fails failingDeleteEnv exampleWorld
      (contextOf "u1" "u1")).2.2.1 (by decide) rfl⟩

/-- C20.  `RefreshToken` returns without error exactly when the status lookup of
the user id of the context works and finds that user with status Activated and
token generation for that id succeeds, and then it returns the generated token;
in every other case it returns an error and no token.  The only calls it makes
are `User.Get` and `GenerateToken`, and it leaves the cache, the user store and
the revoked tokens as they were. -/
theorem C20_refresh_token_iff_activated (env : Env) (w : World) (ctx : Ctx) :
    (∀ token, (biz.Login.RefreshToken env w ctx).1 = (some token, none)
      ↔ (env.fault Op.UserGet = none
          ∧ (∃ user, w.users.find? (fun x => x.ID = ctx.UserID) = some user
              ∧ user.Status = env.UserStatusActivated)
          ∧ env.GenerateToken ctx.UserID = Except.ok token))
    ∧ ((∃ token, (biz.Login.RefreshToken env w ctx).1 = (some token, none))
        ∨ ∃ err, (biz.Login.RefreshToken env w ctx).1 = (none, some err))
    ∧ (biz.Login.RefreshToken env w ctx).2.cache = w.cache
    ∧ (biz.Login.RefreshToken env w ctx).2.users = w.users
    ∧ (biz.Login.RefreshToken env w ctx).2.destroyed = w.destroyed
    ∧ ((biz.Login.RefreshToken env w ctx).2.trace
          = w.trace ++ [Call.UserGet ctx.UserID ["status"]]
        ∨ (biz.Login.RefreshToken env w ctx).2.trace
          = w.trace ++ [Call.UserGet ctx.UserID ["status"], Call.GenerateToken ctx.UserID]) := by
  cases hug : env.fault Op.UserGet with
  | some e =>
    simp [biz.Login.RefreshToken, dal.User.Get, hug]
  | none =>
    cases huser : w.users.find? (fun x => x.ID = ctx.UserID) with
    | none =>
      simp [biz.Login.RefreshToken, dal.User.Get, hug, huser]
    | some user =>
      by_cases hact : user.Status = env.UserStatusActivated
      · cases hgen : env.GenerateToken ctx.UserID with
        | error err =>
          simp [biz.Login.RefreshToken, dal.User.Get, hug, huser, selectFields_status, hact,
            biz.Login.genUserToken, hgen]
        | ok tok =>
          simp [biz.Login.RefreshToken, dal.User.Get, hug, huser, selectFields_status, hact,
            biz.Login.genUserToken, hgen]
      · simp [biz.Login.RefreshToken, dal.User.Get, hug, huser, selectFields_status, hact]

theorem biz.Login.ParseUserID_destroyed (env : Env) (w : World) (c : GinContext) :
    (biz.Login.ParseUserID env w c).2.2.destroyed = w.destroyed := by
  cases hdis : env.AuthDisable with
  | true => simp [biz.Login.ParseUserID, hdis]
  | false =>
    by_cases htok : c.token = ""
    · simp [biz.Login.ParseUserID, hdis, htok]
    · cases h1 : (jwtx.ParseSubject env w c.token).1 with
      | error e =>
        have hp := jwtx.ParseSubject_eq env w c.token _ h1
        by_cases he : e = GoError.ErrInvalidToken <;>
          simp [biz.Login.ParseUserID, hdis, htok, hp, he]
      | ok u =>
        have hp := jwtx.ParseSubject_eq env w c.token _ h1
        by_cases hroot : u = env.RootID
        · simp [biz.Login.ParseUserID, hdis, htok, hp, hroot]
        · cases hcg : env.fault Op.CacheGet with
          | some e => simp [biz.Login.ParseUserID, hdis, htok, hp, hroot, cachex.Get, hcg]
          | none =>
            cases hc : w.cache env.CacheNSForUser u with
            | some entry =>
              simp [biz.Login.ParseUserID, hdis, htok, hp, hroot, cachex.Get, hcg, hc]
            | none =>
              cases hug : env.fault Op.UserGet with
              | some e =>
                simp [biz.Login.ParseUserID, hdis, htok, hp, hroot, cachex.Get, hcg, hc,
                  dal.User.Get, hug]
              | none =>
                cases huser : w.users.find? (fun x => x.ID = u) with
                | none =>
                  simp [biz.Login.ParseUserID, hdis, htok, hp, hroot, cachex.Get, hcg, hc,
                    dal.User.Get, hug, huser]
                | some user =>
                  by_cases hact : user.Status = env.UserStatusActivated
                  · cases hrq : env.fault Op.UserRoleQuery with
                    | some e =>
                      simp [biz.Login.ParseUserID, hdis, htok, hp, hroot, cachex.Get, hcg, hc,
                        dal.User.Get, hug, huser, selectFields_status, hact, biz.User.GetRoleIDs,
                        dal.UserRole.Query, hrq]
                    | none =>
                      cases hcs : env.fault Op.CacheSet <;>
                        simp [biz.Login.ParseUserID, hdis, htok, hp, hroot, cachex.Get, hcg, hc,
                          dal.User.Get, hug, huser, selectFields_status, hact,
                          biz.User.GetRoleIDs, dal.UserRole.Query, hrq, cachex.Set, hcs]
                  · simp [biz.Login.ParseUserID, hdis, htok, hp, hroot, cachex.Get, hcg, hc,
                      dal.User.Get, hug, huser, selectFields_status, hact]

theorem biz.Login.genUserToken_destroyed (env : Env) (w : World) (userID : String) :
    (biz.Login.genUserToken env w userID).2.destroyed = w.destroyed := by
  unfold biz.Login.genUserToken
  cases env.GenerateToken userID <;> rfl

theorem biz.Login.Login_destroyed (env : Env) (w : World) (formItem : LoginForm) :
    (biz.Login.Login env w formItem).2.destroyed = w.destroyed := by
  by_cases hname : formItem.Username = env.RootUsername
  · by_cases hpw : formItem.Password = env.MD5String env.RootPassword <;>
      simp [biz.Login.Login, hname, hpw, biz.Login.genUserToken_destroyed]
  · cases hgu : env.fault Op.UserGetByUsername with
    | some e => simp [biz.Login.Login, hname, dal.User.GetByUsername, hgu]
    | none =>
      cases huser : w.users.find? (fun u => u.Username = formItem.Username) with
      | none => simp [biz.Login.Login, hname, dal.User.GetByUsername, hgu, huser]
      | some user =>
        by_cases hact : user.Status = env.UserStatusActivated
        · cases hcmp : env.CompareHashAndPassword user.Password formItem.Password with
          | some e =>
            simp [biz.Login.Login, hname, dal.User.GetByUsername, hgu, huser,
              selectFields_login, hact, hash.CompareHashAndPassword, hcmp]
          | none =>
            cases hrq : env.fault Op.UserRoleQuery with
            | some e =>
              simp [biz.Login.Login, hname, dal.User.GetByUsername, hgu, huser,
                selectFields_login, hact, hash.CompareHashAndPassword, hcmp,
                biz.User.GetRoleIDs, dal.UserRole.Query, hrq]
            | none =>
              cases hcs : env.fault Op.CacheSet <;>
                simp [biz.Login.Login, hname, dal.User.GetByUsername, hgu, huser,
                  selectFields_login, hact, hash.CompareHashAndPassword, hcmp,
                  biz.User.GetRoleIDs, dal.UserRole.Query, hrq, cachex.Set, hcs,
                  biz.Login.genUserToken_destroyed]
        · simp [biz.Login.Login, hname, dal.User.GetByUsername, hgu, huser,
            selectFields_login, hact]

theorem biz.Login.RefreshToken_destroyed (env : Env) (w : World) (ctx : Ctx) :
    (biz.Login.RefreshToken env w ctx).2.destroyed = w.destroyed := by
  cases hug : env.fault Op.UserGet with
  | some e => simp [biz.Login.RefreshToken, dal.User.Get, hug]
  | none =>
    cases huser : w.users.find? (fun x => x.ID = ctx.UserID) with
    | none => simp [biz.Login.RefreshToken, dal.User.Get, hug, huser]
    | some user =>
      by_cases hact : user.Status = env.UserStatusActivated <;>
        simp [biz.Login.RefreshToken, dal.User.Get, hug, huser, selectFields_status, hact,
          biz.Login.genUserToken_destroyed]

theorem biz.Login.Logout_destroyed (env : Env) (w : World) (ctx : Ctx) (t : String)
    (ht : t ∈ w.destroyed) : t ∈ (biz.Login.Logout env w ctx).2.destroyed := by
  by_cases htok : ctx.UserToken = ""
  · simpa [biz.Login.Logout, htok] using ht
  · cases hdt : env.fault Op.DestroyToken <;> cases hcd : env.fault Op.CacheDelete <;>
      simp [biz.Login.Logout, htok, jwtx.DestroyToken, hdt, cachex.Delete, hcd, ht]

theorem biz.User.createRoles_destroyed (env : Env) (userID : String) :
    ∀ (roles : List UserRole) (w : World),
      (biz.User.createRoles env userID w roles).2.destroyed = w.destroyed := by
  intro roles
  induction roles with
  | nil => intro w; rfl
  | cons r rest ih =>
    intro w
    unfold biz.User.createRoles
    by_cases hid : r.ID = "" <;> cases hc : env.fault Op.UserRoleCreate <;>
      simp [hid, dal.UserRole.Create, hc, ih]

theorem util.Trans.Exec_destroyed (env : Env) (w : World)
    (fn : World → Option GoError × World)
    (hfn : (fn w).2.destroyed = w.destroyed) :
    (util.Trans.Exec env w fn).2.destroyed = w.destroyed := by
  unfold util.Trans.Exec
  rcases h : fn w with ⟨r, w1⟩
  rw [h] at hfn
  cases r with
  | some e => simpa using hfn
  | none => cases env.fault Op.Commit <;> simpa using hfn

theorem cachex.Delete_destroyed (env : Env) (w : World) (ns key : String) :
    (cachex.Delete env w ns key).2.destroyed = w.destroyed := by
  unfold cachex.Delete
  cases env.fault Op.CacheDelete <;> rfl

theorem biz.User.Update_destroyed (env : Env) (w : World) (id : String) (formItem : UserForm) :
    (biz.User.Update env w id formItem).2.destroyed = w.destroyed := by
  unfold biz.User.Update
  cases hug : env.fault Op.UserGet with
  | some e => simp [dal.User.Get, hug]
  | none =>
    cases huser : w.users.find? (fun u => u.ID = id) with
    | none => simp [dal.User.Get, hug, huser]
    | some user =>
      simp only [dal.User.Get, hug, World.log_users, huser, User.selectFields, if_true,
        Option.map_some']
      have hchecked : ∀ r w1,
          (if user.Username ≠ formItem.Username then
            match dal.User.ExistsUsername env (w.log (Call.UserGet id [])) formItem.Username with
            | (Except.error err, w) => (some err, w)
            | (Except.ok existsUsername, w) =>
              if existsUsername then (some (errors.BadRequest "" "Username already exists"), w)
              else (none, w)
          else (none, w.log (Call.UserGet id []))) = (r, w1) → w1.destroyed = w.destroyed := by
        intro r w1 h
        by_cases hu : user.Username = formItem.Username
        · simp [hu] at h
          rw [← h.2]; rfl
        · cases hex : env.fault Op.UserExistsUsername with
          | some e =>
            simp [hu, dal.User.ExistsUsername, hex] at h
            rw [← h.2]; rfl
          | none =>
            cases hany : w.users.any (fun u => u.Username = formItem.Username) <;>
              simp [hu, dal.User.ExistsUsername, hex, hany] at h <;>
              (rw [← h.2]; rfl)
      split
      · rename_i err w1 heq
        exact hchecked _ _ heq
      · rename_i w1 heq
        have e1 := hchecked _ _ heq
        cases hfill : env.FillTo formItem user with
        | error err => simpa using e1
        | ok filled =>
          simp only
          rw [util.Trans.Exec_destroyed, e1]
          cases hupd : env.fault Op.UserUpdate with
          | some e => simp [dal.User.Update, hupd]
          | none =>
            cases hrd : env.fault Op.UserRoleDeleteByUserID with
            | some e => simp [dal.User.Update, hupd, dal.UserRole.DeleteByUserID, hrd]
            | none =>
              simp only [dal.User.Update, hupd, dal.UserRole.DeleteByUserID, hrd]
              split
              · rename_i err w2 heq2
                have := congrArg (fun p => p.2.destroyed) heq2
                simp only [biz.User.createRoles_destroyed] at this
                simpa using this.symm
              · rename_i w2 heq2
                have := congrArg (fun p => p.2.destroyed) heq2
                simp only [biz.User.createRoles_destroyed] at this
                rw [cachex.Delete_destroyed]
                simpa using this.symm

theorem biz.User.Delete_user_destroyed (env : Env) (w : World) (id : String) :
    (biz.User.Delete env w id).2.destroyed = w.destroyed := by
  unfold biz.User.Delete
  cases hex : env.fault Op.UserExists with
  | some e => simp [dal.User.Exists, hex]
  | none =>
    cases hany : w.users.any (fun u => u.ID = id) with
    | false => simp [dal.User.Exists, hex, hany]
    | true =>
      simp only [dal.User.Exists, hex, World.log_users, hany, Bool.not_true,
        Bool.false_eq_true, if_false]
      rw [util.Trans.Exec_destroyed]
      · rfl
      · cases hdel : env.fault Op.UserDelete with
        | some e => simp [dal.User.Delete, hdel]
        | none =>
          cases hrd : env.fault Op.UserRoleDeleteByUserID with
          | some e => simp [dal.User.Delete, hdel, dal.UserRole.DeleteByUserID, hrd]
          | none =>
            simp [dal.User.Delete, hdel, dal.UserRole.DeleteByUserID, hrd,
              cachex.Delete_destroyed]

theorem Operation.run_destroyed (env : Env) (w : World) (op : Operation) (t : String)
    (ht : t ∈ w.destroyed) : t ∈ (op.run env w).destroyed := by
  cases op with
  | ParseUserID c => simpa [Operation.run, biz.Login.ParseUserID_destroyed] using ht
  | Login formItem => simpa [Operation.run, biz.Login.Login_destroyed] using ht
  | RefreshToken ctx => simpa [Operation.run, biz.Login.RefreshToken_destroyed] using ht
  | Logout ctx => exact biz.Login.Logout_destroyed env w ctx t ht
  | UserUpdate id formItem => simpa [Operation.run, biz.User.Update_destroyed] using ht
  | UserDelete id => simpa [Operation.run, biz.User.Delete_user_destroyed] using ht

theorem runOperations_destroyed (t : String) :
    ∀ (ops : List (Env × Operation)) (w : World),
      t ∈ w.destroyed → t ∈ (runOperations w ops).destroyed := by
  intro ops
  induction ops with
  | nil => intro w ht; exact ht
  | cons p rest ih =>
    intro w ht
    rcases p with ⟨env, op⟩
    exact ih _ (Operation.run_destroyed env w op t ht)

/-- C19.  For every token t: once `Logout` has run with t in the context and has
returned nil, so that t is destroyed, every later `ParseUserID` that presents t
with auth enabled fails with Unauthorized, whatever operations of the session
manager and of user management have run in between and whatever the token
service would otherwise answer for t. -/
theorem C19_destroyed_token_never_resolves (env : Env) (w : World) (ctx : Ctx)
    (htok : ctx.UserToken ≠ "")
    (hout : (biz.Login.Logout env w ctx).1 = none) :
    ∀ (ops : List (Env × Operation)) (env' : Env) (c : GinContext),
      env'.AuthDisable = false → c.token = ctx.UserToken →
      (biz.Login.ParseUserID env' (runOperations (biz.Login.Logout env w ctx).2 ops) c).1
        = ("", some (errors.Unauthorized env'.ErrInvalidTokenID "Invalid access token")) := by
  intro ops env' c hen hc
  have hmem : ctx.UserToken ∈ (biz.Login.Logout env w ctx).2.destroyed := by
    cases hdt : env.fault Op.DestroyToken with
    | some e => simp [biz.Login.Logout, htok, jwtx.DestroyToken, hdt] at hout
    | none =>
      cases hcd : env.fault Op.CacheDelete <;>
        simp [biz.Login.Logout, htok, jwtx.DestroyToken, hdt, cachex.Delete, hcd]
  have hlater := runOperations_destroyed ctx.UserToken ops _ hmem
  have hctok : c.token ≠ "" := by rw [hc]; exact htok
  rw [← hc] at hlater
  simp [biz.Login.ParseUserID, hen, hctok, jwtx.ParseSubject, hlater]

/-- C19 (witness).  In the example state the token `u1` resolves to `u1`; after a
logout with that token, followed by a login of `alice` and by a request of
another user, the token `u1` is rejected. -/
theorem C19_destroyed_token_never_resolves_witness :
    (biz.Login.ParseUserID exampleEnv exampleWorld (requestWith "u1")).1 = ("u1", none)
    ∧ (biz.Login.ParseUserID exampleEnv
        (runOperations (biz.Login.Logout exampleEnv exampleWorld (contextOf "u1" "u1")).2
          [(exampleEnv, Operation.Login ⟨"alice", "pw1"⟩),
           (exampleEnv, Operation.ParseUserID (requestWith "u2"))])
        (requestWith "u1")).1
      = ("", some (errors.Unauthorized exampleEnv.ErrInvalidTokenID "Invalid access token")) :=
  ⟨by decide,
   C19_destroyed_token_never_resolves exampleEnv exampleWorld (contextOf "u1" "u1")
     (by decide) (by decide)
     [(exampleEnv, Operation.Login ⟨"alice", "pw1"⟩),
      (exampleEnv, Operation.ParseUserID (requestWith "u2"))]
     exampleEnv (requestWith "u1") rfl rfl⟩

/-- C20 (witness).  In the example state: the activated user `u1` gets the token
generated for `u1`, the frozen user `u2` gets an error and no token. -/
theorem C20_refresh_token_iff_activated_witness :
    (biz.Login.RefreshToken exampleEnv exampleWorld (contextOf "t" "u1")).1
      = (some { AccessToken := "u1", TokenType := "Bearer", ExpiresAt := 0 }, none)
    ∧ (biz.Login.RefreshToken exampleEnv exampleWorld (contextOf "t" "u2")).1
      = (none, some (errors.BadRequest ""
          "User status is not activated, please contact the administrator"))
    ∧ (biz.Login.RefreshToken exampleEnv exampleWorld (contextOf "t" "u1")).2.cache
      = exampleWorld.cache :=
  ⟨((C20_refresh_token_iff_activated exampleEnv exampleWorld (contextOf "t" "u1")).1 _).2
      ⟨rfl, ⟨⟨"u1", "alice", "pw1", "activated"⟩, by decide, rfl⟩, rfl⟩,
   by decide,
   (C20_refresh_token_iff_activated exampleEnv exampleWorld (contextOf "t" "u1")).2.2.1⟩

/-! ## Part 5. Theorems on the middlewares and on the models -/

/-- C27 (the code at the failing input).  `HasId` returns true for every model,
also for a model whose id is 0. -/
theorem C27_HasId_is_true_for_zero_id :
    (models.BaseModel.HasId { isNotNew := false, ID := 0, Created := 0, Updated := 0 }) = true
    ∧ (∀ m : models.BaseModel, m.HasId = true)
    ∧ ¬ (∀ m : models.BaseModel, m.HasId = true ↔ m.ID ≠ 0) := by
  refine ⟨rfl, fun _ => rfl, ?_⟩
  intro h
  exact ((h { isNotNew := false, ID := 0, Created := 0, Updated := 0 }).1 rfl) rfl

/-- C25.  For every request context, `RequireGuestOnly` hands the request to the
next handler if and only if `RequireAdminOrRecordAuth()` without collection names
rejects it, and that is if and only if neither an admin nor an auth record is set
in the context. -/
theorem C25_guest_only_is_opposite_of_admin_or_record (c : apis.Context) :
    (apis.RequireGuestOnly c = apis.Result.next
      ↔ ∃ err, apis.RequireAdminOrRecordAuth [] c = apis.Result.reject err)
    ∧ (apis.RequireGuestOnly c = apis.Result.next ↔ c.admin = none ∧ c.authRecord = none)
    ∧ (apis.RequireAdminOrRecordAuth [] c = apis.Result.next
      ↔ ∃ err, apis.RequireGuestOnly c = apis.Result.reject err) := by
  rcases c with ⟨admin, record⟩
  cases admin <;> cases record <;>
    simp [apis.RequireGuestOnly, apis.RequireAdminOrRecordAuth]

theorem rate.Limiter.Allow_limit_burst (lim : rate.Limiter) (now : Int) :
    (lim.Allow now).2.limit = lim.limit ∧ (lim.Allow now).2.burst = lim.burst := by
  unfold rate.Limiter.Allow
  split
  · exact ⟨rfl, rfl⟩
  · simp only
    split_ifs <;> exact ⟨rfl, rfl⟩

/-- C29.  For an identifier that has a bucket in the store, two `Allow` calls at
one instant with any positive period and maxRequests arguments return the same
result and leave the same store: the result is that of the stored bucket, and
the bucket stored afterwards has the rate and the burst of the bucket that was
there. -/
theorem C29_existing_bucket_ignores_arguments (s : RateLimiterMemoryStore) (now : Int)
    (identifier : String) (lim : rate.Limiter) (p1 m1 p2 m2 : Int)
    (hget : s.cache.Get now identifier = some lim)
    (hp1 : 0 < p1) (hm1 : 0 < m1) (hp2 : 0 < p2) (hm2 : 0 < m2) :
    s.Allow now identifier p1 m1 = s.Allow now identifier p2 m2
    ∧ (s.Allow now identifier p1 m1).1 = ((lim.Allow now).1, none)
    ∧ (∃ lim', (s.Allow now identifier p1 m1).2.cache.Get now identifier = some lim'
        ∧ lim'.limit = lim.limit ∧ lim'.burst = lim.burst) := by
  rw [Allow_existing s now identifier p1 m1 lim hp1 hm1 hget,
    Allow_existing s now identifier p2 m2 lim hp2 hm2 hget]
  refine ⟨rfl, rfl, (lim.Allow now).2, ?_, rate.Limiter.Allow_limit_burst lim now⟩
  exact gocache.Get_SetDefault_self _ _ _ _

/-- C29 (witness).  The bucket of `ip`, created with period 1 s and three
requests and used up: a call with period 1 s and three requests and a call with
period 5 s and a hundred requests are both denied. -/
theorem C29_existing_bucket_ignores_arguments_witness :
    exhaustedStore.Allow 5 "ip" 1000000000 3 = exhaustedStore.Allow 5 "ip" 5000000000 100
    ∧ (exhaustedStore.Allow 5 "ip" 1000000000 3).1
      = (((rate.bucket 1000000000 3 0 5).Allow 5).1, none)
    ∧ (∃ lim', (exhaustedStore.Allow 5 "ip" 1000000000 3).2.cache.Get 5 "ip" = some lim'
        ∧ lim'.limit = (rate.bucket 1000000000 3 0 5).limit
        ∧ lim'.burst = (rate.bucket 1000000000 3 0 5).burst) :=
  C29_existing_bucket_ignores_arguments exhaustedStore 5 "ip" (rate.bucket 1000000000 3 0 5)
    1000000000 3 5000000000 100 (by decide) (by decide) (by decide) (by decide) (by decide)

/-- C30.  In `ParseUserID` a failure of the cache is fatal, for a valid token of a
non-root user: an error e of `Cacher.Get` is returned with an empty user id; and
on the cache-miss path, for an Activated user whose role ids load, an error e of
`Cacher.Set` is returned with an empty user id.  In `Login` the same failure of
`Cacher.Set` is swallowed: the login of such a user returns the generated
token. -/
theorem C30_cache_failure_is_fatal_in_ParseUserID (env : Env) (w : World) (c : GinContext)
    (u : String) (e : GoError)
    (hen : env.AuthDisable = false) (htok : c.token ≠ "")
    (hparse : (jwtx.ParseSubject env w c.token).1 = Except.ok u)
    (hroot : u ≠ env.RootID) :
    (env.fault Op.CacheGet = some e →
      (biz.Login.ParseUserID env w c).1 = ("", some e)
      ∧ (biz.Login.ParseUserID env w c).2.1 = c)
    ∧ (∀ user, env.fault Op.CacheGet = none → w.cache env.CacheNSForUser u = none →
        env.fault Op.UserGet = none → w.users.find? (fun x => x.ID = u) = some user →
        user.Status = env.UserStatusActivated → env.fault Op.UserRoleQuery = none →
        env.fault Op.CacheSet = some e →
        (biz.Login.ParseUserID env w c).1 = ("", some e)
        ∧ (biz.Login.ParseUserID env w c).2.1 = c)
    ∧ (∀ (formItem : LoginForm) (user : User) (token : LoginToken),
        formItem.Username ≠ env.RootUsername → env.fault Op.UserGetByUsername = none →
        w.users.find? (fun x => x.Username = formItem.Username) = some user →
        user.Status = env.UserStatusActivated →
        env.CompareHashAndPassword user.Password formItem.Password = none →
        env.fault Op.UserRoleQuery = none → env.GenerateToken user.ID = Except.ok token →
        env.fault Op.CacheSet = some e →
        (biz.Login.Login env w formItem).1 = (some token, none)) := by
  have hp := jwtx.ParseSubject_eq env w c.token _ hparse
  refine ⟨?_, ?_, ?_⟩
  · intro hcg
    simp [biz.Login.ParseUserID, hen, htok, hp, hroot, cachex.Get, hcg]
  · intro user hcg hmiss hug huser hact hrq hcs
    simp [biz.Login.ParseUserID, hen, htok, hp, hroot, cachex.Get, hcg, hmiss, dal.User.Get,
      hug, huser, selectFields_status, hact, biz.User.GetRoleIDs, dal.UserRole.Query, hrq,
      cachex.Set, hcs]
  · intro formItem user token hname hgu huser hact hpw hrq hgen hcs
    simp [biz.Login.Login, hname, dal.User.GetByUsername, hgu, huser, selectFields_login, hact,
      hash.CompareHashAndPassword, hpw, biz.User.GetRoleIDs, dal.UserRole.Query, hrq,
      biz.Login.genUserToken, hgen]

/-- C30 (witness).  The activated user `u1` of the example state with a cache
whose `Set` fails: `ParseUserID` fails with the error of the cache, `Login`
returns the token. -/
theorem C30_cache_failure_is_fatal_in_ParseUserID_witness :
    ((biz.Login.ParseUserID failingSetEnv exampleWorld (requestWith "u1")).1
        = ("", some (GoError.other "cache down"))
      ∧ (biz.Login.ParseUserID failingSetEnv exampleWorld (requestWith "u1")).2.1
        = requestWith "u1")
    ∧ (biz.Login.Login failingSetEnv exampleWorld ⟨"alice", "pw1"⟩).1
      = (some { AccessToken := "u1", TokenType := "Bearer", ExpiresAt := 0 }, none) :=
  ⟨(C30_cache_failure_is_fatal_in_ParseUserID failingSetEnv exampleWorld (requestWith "u1")
      "u1" (GoError.other "cache down") rfl (by decide) rfl (by decide)).2.1
      ⟨"u1", "alice", "pw1", "activated"⟩ rfl rfl rfl (by decide) rfl rfl rfl,
   (C30_cache_failure_is_fatal_in_ParseUserID failingSetEnv exampleWorld (requestWith "u1")
      "u1" (GoError.other "cache down") rfl (by decide) rfl (by decide)).2.2
      ⟨"alice", "pw1"⟩ ⟨"u1", "alice", "pw1", "activated"⟩ _ (by decide) rfl (by decide) rfl
      rfl rfl rfl rfl⟩

/-- C28 (counterexample).  The example state stores the frozen user `u3` whose
username is the root username `admin`: the login with that username returns a
token for the root password hash and an error for another password, so its
result depends on the submitted password. -/
theorem C28_root_username_login_depends_on_password :
    shadowWorld.users.find? (fun u => u.Username = "admin")
      = some ⟨"u3", "admin", "pw3", "freezed"⟩
    ∧ "freezed" ≠ exampleEnv.UserStatusActivated
    ∧ (biz.Login.Login exampleEnv shadowWorld ⟨"admin", "md5:secret"⟩).1
      ≠ (biz.Login.Login exampleEnv shadowWorld ⟨"admin", "other"⟩).1 := by
  decide

/-- C28 (amended).  For every stored user whose status is not Activated and whose
username is not the configured root username, the result of `Login` with that
username and the state it leaves are the same for any two passwords; when the
user lookup works the result is the "not activated" BadRequest and the only call
made is the user lookup, so the password verifier is not called. -/
theorem C28_not_activated_login_ignores_password (env : Env) (w : World) (user : User)
    (username : String)
    (hname : username ≠ env.RootUsername)
    (huser : w.users.find? (fun u => u.Username = username) = some user)
    (hst : user.Status ≠ env.UserStatusActivated) :
    (∀ p q : String,
      biz.Login.Login env w ⟨username, p⟩ = biz.Login.Login env w ⟨username, q⟩)
    ∧ (env.fault Op.UserGetByUsername = none → ∀ p : String,
        biz.Login.Login env w ⟨username, p⟩
          = ((none, some (errors.BadRequest ""
              "User status is not activated, please contact the administrator")),
             { w with trace := w.trace ++
                 [Call.UserGetByUsername username ["id", "password", "status"]] })) := by
  constructor
  · intro p q
    cases hgu : env.fault Op.UserGetByUsername <;>
      simp [biz.Login.Login, hname, dal.User.GetByUsername, hgu, huser, selectFields_login, hst]
  · intro hgu p
    simp [biz.Login.Login, hname, dal.User.GetByUsername, hgu, huser, selectFields_login, hst,
      World.log]

/-- C28 (witness).  The frozen user `bob` of the example state, with his password
and with another one. -/
theorem C28_not_activated_login_ignores_password_witness :
    biz.Login.Login exampleEnv exampleWorld ⟨"bob", "pw2"⟩
      = biz.Login.Login exampleEnv exampleWorld ⟨"bob", "wrong"⟩ :=
  (C28_not_activated_login_ignores_password exampleEnv exampleWorld
    ⟨"u2", "bob", "pw2", "freezed"⟩ "bob" (by decide) (by decide) (by decide)).1 "pw2" "wrong"

/-- C24 (counterexample).  With authentication disabled `ParseUserID` returns the
root id without error and leaves the request context as it was: the root flag
is not set.  And with auth enabled, on a request whose context already carries
the root flag, the token of the user `u1` resolves to `u1` and the flag is still
set, although `u1` is not the root id. -/
theorem C24_root_flag_not_tied_to_returned_id :
    (authDisabledEnv.AuthDisable = true
      ∧ (biz.Login.ParseUserID authDisabledEnv exampleWorld (requestWith "u1")).1
        = (authDisabledEnv.RootID, none)
      ∧ (biz.Login.ParseUserID authDisabledEnv exampleWorld
          (requestWith "u1")).2.1.ctx.IsRootUser = false
      ∧ (biz.Login.ParseUserID authDisabledEnv exampleWorld
          (requestWith "u1")).2.1.ctx.UserCache = none)
    ∧ (exampleEnv.AuthDisable = false
      ∧ "u1" ≠ exampleEnv.RootID
      ∧ (biz.Login.ParseUserID exampleEnv exampleWorld
          { token := "u1",
            ctx := { UserToken := "", UserID := "", IsRootUser := true, UserCache := none } }).1
        = ("u1", none)
      ∧ (biz.Login.ParseUserID exampleEnv exampleWorld
          { token := "u1",
            ctx := { UserToken := "", UserID := "", IsRootUser := true, UserCache := none }
          }).2.1.ctx.IsRootUser = true) := by
  decide

/-- C24 (amended).  With auth enabled, whenever `ParseUserID` returns
successfully: if the returned id is the configured root id, the request context
is the one of the request with the token and the root flag set; otherwise it is
the one of the request with the token and the role-id snapshot of the returned
user attached, which is the parsed cache entry of that user on a cache hit and
the role ids returned by `GetRoleIDs` for that user on a cache miss, and the
root flag stays as the request carried it.  So on a request that does not carry
the root flag, the flag is set if and only if the returned id is the configured
root id.  With auth disabled it returns the root id and leaves the request
context as it was. -/
theorem C24_principal_matches_returned_id (env : Env) (w : World) (c : GinContext) :
    (env.AuthDisable = false → (biz.Login.ParseUserID env w c).1.2 = none →
      ((biz.Login.ParseUserID env w c).1.1 = env.RootID →
        (biz.Login.ParseUserID env w c).2.1
          = { c with ctx := { c.ctx with UserToken := c.token, IsRootUser := true } })
      ∧ ((biz.Login.ParseUserID env w c).1.1 ≠ env.RootID →
          (∀ entry,
            w.cache env.CacheNSForUser (biz.Login.ParseUserID env w c).1.1 = some entry →
            (biz.Login.ParseUserID env w c).2.1
              = { c with
                  ctx := { c.ctx with
                           UserToken := c.token,
                           UserCache := some (env.ParseUserCache entry.value) } })
          ∧ (w.cache env.CacheNSForUser (biz.Login.ParseUserID env w c).1.1 = none →
              ∃ roleIDs,
                (biz.User.GetRoleIDs env w (biz.Login.ParseUserID env w c).1.1).1
                  = Except.ok roleIDs
                ∧ (biz.Login.ParseUserID env w c).2.1
                  = { c with
                      ctx := { c.ctx with UserToken := c.token, UserCache := some roleIDs } }))
      ∧ (c.ctx.IsRootUser = false →
          ((biz.Login.ParseUserID env w c).2.1.ctx.IsRootUser = true
            ↔ (biz.Login.ParseUserID env w c).1.1 = env.RootID)))
    ∧ (env.AuthDisable = true →
        (biz.Login.ParseUserID env w c).1 = (env.RootID, none)
        ∧ (biz.Login.ParseUserID env w c).2.1 = c) := by
  constructor
  · intro hdis hsucc
    by_cases htok : c.token = ""
    · simp [biz.Login.ParseUserID, hdis, htok, errors.Unauthorized] at hsucc
    · cases h1 : (jwtx.ParseSubject env w c.token).1 with
      | error e =>
        have hp := jwtx.ParseSubject_eq env w c.token _ h1
        by_cases he : e = GoError.ErrInvalidToken <;>
          simp [biz.Login.ParseUserID, hdis, htok, hp, he, errors.Unauthorized] at hsucc
      | ok u =>
        have hp := jwtx.ParseSubject_eq env w c.token _ h1
        by_cases hroot : u = env.RootID
        · simp [biz.Login.ParseUserID, hdis, htok, hp, hroot]
        · cases hcg : env.fault Op.CacheGet with
          | some e =>
            simp [biz.Login.ParseUserID, hdis, htok, hp, hroot, cachex.Get, hcg] at hsucc
          | none =>
            cases hc : w.cache env.CacheNSForUser u with
            | some entry =>
              have hmain : (biz.Login.ParseUserID env w c).1 = (u, none)
                  ∧ (biz.Login.ParseUserID env w c).2.1
                    = { c with
                        ctx := { c.ctx with
                                 UserToken := c.token,
                                 UserCache := some (env.ParseUserCache entry.value) } } := by
                simp [biz.Login.ParseUserID, hdis, htok, hp, hroot, cachex.Get, hcg, hc]
              have hid : (biz.Login.ParseUserID env w c).1.1 = u := by
                rw [hmain.1]
              rw [hid, hmain.2]
              refine ⟨fun h => absurd h hroot, fun _ => ⟨?_, ?_⟩, ?_⟩
              · intro entry' h'
                rw [hc] at h'
                cases h'
                rfl
              · intro h'
                rw [hc] at h'
                cases h'
              · intro hfresh
                simp [hfresh, hroot]
            | none =>
              cases hug : env.fault Op.UserGet with
              | some e =>
                simp [biz.Login.ParseUserID, hdis, htok, hp, hroot, cachex.Get, hcg, hc,
                  dal.User.Get, hug] at hsucc
              | none =>
                cases huser : w.users.find? (fun x => x.ID = u) with
                | none =>
                  simp [biz.Login.ParseUserID, hdis, htok, hp, hroot, cachex.Get, hcg, hc,
                    dal.User.Get, hug, huser, errors.Unauthorized] at hsucc
                | some user =>
                  by_cases hact : user.Status = env.UserStatusActivated
                  · cases hrq : env.fault Op.UserRoleQuery with
                    | some e =>
                      simp [biz.Login.ParseUserID, hdis, htok, hp, hroot, cachex.Get, hcg, hc,
                        dal.User.Get, hug, huser, selectFields_status, hact,
                        biz.User.GetRoleIDs, dal.UserRole.Query, hrq] at hsucc
                    | none =>
                      cases hcs : env.fault Op.CacheSet with
                      | some e =>
                        simp [biz.Login.ParseUserID, hdis, htok, hp, hroot, cachex.Get, hcg, hc,
                          dal.User.Get, hug, huser, selectFields_status, hact,
                          biz.User.GetRoleIDs, dal.UserRole.Query, hrq, cachex.Set, hcs]
                          at hsucc
                      | none =>
                        have hmain : (biz.Login.ParseUserID env w c).1 = (u, none)
                            ∧ (biz.Login.ParseUserID env w c).2.1
                              = { c with
                                  ctx := { c.ctx with
                                           UserToken := c.token,
                                           UserCache := some ((w.userRoles.filter
                                             (fun r => r.UserID = u)).map UserRole.RoleID) } } := by
                          simp [biz.Login.ParseUserID, hdis, htok, hp, hroot, cachex.Get, hcg,
                            hc, dal.User.Get, hug, huser, selectFields_status, hact,
                            biz.User.GetRoleIDs, dal.UserRole.Query, hrq, cachex.Set, hcs]
                        have hid : (biz.Login.ParseUserID env w c).1.1 = u := by
                          rw [hmain.1]
                        rw [hid, hmain.2]
                        refine ⟨fun h => absurd h hroot, fun _ => ⟨?_, ?_⟩, ?_⟩
                        · intro entry' h'
                          rw [hc] at h'
                          cases h'
                        · intro _
                          exact ⟨_, by rw [biz.User.GetRoleIDs_eq env w u hrq], rfl⟩
                        · intro hfresh
                          simp [hfresh, hroot]
                  · simp [biz.Login.ParseUserID, hdis, htok, hp, hroot, cachex.Get, hcg, hc,
                      dal.User.Get, hug, huser, selectFields_status, hact,
                      errors.Unauthorized] at hsucc
  · intro hdis
    simp [biz.Login.ParseUserID, hdis]

/-- C24 (witness).  In the example state, with auth enabled: the token `root`
sets the root flag; the token `u1` attaches the role ids `admins` that
`GetRoleIDs` returns for `u1` and sets no root flag. -/
theorem C24_principal_matches_returned_id_witness :
    (biz.Login.ParseUserID exampleEnv exampleWorld (requestWith "root")).2.1
      = { requestWith "root" with
          ctx := { (requestWith "root").ctx with
                   UserToken := (requestWith "root").token, IsRootUser := true } }
    ∧ (∃ roleIDs,
        (biz.User.GetRoleIDs exampleEnv exampleWorld
          (biz.Login.ParseUserID exampleEnv exampleWorld (requestWith "u1")).1.1).1
          = Except.ok roleIDs
        ∧ (biz.Login.ParseUserID exampleEnv exampleWorld (requestWith "u1")).2.1
          = { requestWith "u1" with
              ctx := { (requestWith "u1").ctx with
                       UserToken := (requestWith "u1").token, UserCache := some roleIDs } })
    ∧ (biz.Login.ParseUserID exampleEnv exampleWorld (requestWith "u1")).2.1.ctx.UserCache
      = some ["admins"]
    ∧ ((biz.Login.ParseUserID exampleEnv exampleWorld (requestWith "u1")).2.1.ctx.IsRootUser
        = true
      ↔ (biz.Login.ParseUserID exampleEnv exampleWorld (requestWith "u1")).1.1
        = exampleEnv.RootID) :=
  ⟨((C24_principal_matches_returned_id exampleEnv exampleWorld (requestWith "root")).1 rfl
      (by decide)).1 (by decide),
   (((C24_principal_matches_returned_id exampleEnv exampleWorld (requestWith "u1")).1 rfl
      (by decide)).2.1 (by decide)).2 (by decide),
   by decide,
   ((C24_principal_matches_returned_id exampleEnv exampleWorld (requestWith "u1")).1 rfl
      (by decide)).2.2 rfl⟩

theorem selectFields_password (u : User) :
    (User.selectFields ["password"] u).Password = u.Password := by
  simp [User.selectFields]

/-- C21.  `UpdatePassword` changes the user store only if the principal is not
root, the lookup of the current user works and finds the user, the old password
verifies against the stored hash and hash generation succeeds; then it writes the
generated hash to the rows of that user and returns what the write returns.  In
every other case it returns an error and leaves the user store unchanged:
BadRequest for the root principal, without any call, and BadRequest for a wrong
old password.  In all cases the revoked tokens and the capability cache are as
before. -/
theorem C21_update_password_guards (env : Env) (w : World) (ctx : Ctx)
    (updateItem : UpdateLoginPassword) :
    (ctx.IsRootUser = true →
      biz.Login.UpdatePassword env w ctx updateItem
        = (some (errors.BadRequest "" "Root user cannot change password"), w))
    ∧ ((biz.Login.UpdatePassword env w ctx updateItem).2.users ≠ w.users →
        ctx.IsRootUser = false ∧ env.fault Op.UserGet = none
        ∧ ∃ user newPassword, w.users.find? (fun x => x.ID = ctx.UserID) = some user
            ∧ env.CompareHashAndPassword user.Password updateItem.OldPassword = none
            ∧ env.GeneratePassword updateItem.NewPassword = Except.ok newPassword)
    ∧ (¬ (ctx.IsRootUser = false ∧ env.fault Op.UserGet = none
          ∧ ∃ user newPassword, w.users.find? (fun x => x.ID = ctx.UserID) = some user
              ∧ env.CompareHashAndPassword user.Password updateItem.OldPassword = none
              ∧ env.GeneratePassword updateItem.NewPassword = Except.ok newPassword) →
        (biz.Login.UpdatePassword env w ctx updateItem).1 ≠ none
        ∧ (biz.Login.UpdatePassword env w ctx updateItem).2.users = w.users)
    ∧ (∀ user e, ctx.IsRootUser = false → env.fault Op.UserGet = none →
        w.users.find? (fun x => x.ID = ctx.UserID) = some user →
        env.CompareHashAndPassword user.Password updateItem.OldPassword = some e →
        (biz.Login.UpdatePassword env w ctx updateItem).1
          = some (errors.BadRequest "" "Incorrect old password"))
    ∧ (∀ user newPassword, ctx.IsRootUser = false → env.fault Op.UserGet = none →
        w.users.find? (fun x => x.ID = ctx.UserID) = some user →
        env.CompareHashAndPassword user.Password updateItem.OldPassword = none →
        env.GeneratePassword updateItem.NewPassword = Except.ok newPassword →
        (biz.Login.UpdatePassword env w ctx updateItem).1 = env.fault Op.UserUpdatePasswordByID
        ∧ (env.fault Op.UserUpdatePasswordByID = none →
            (biz.Login.UpdatePassword env w ctx updateItem).2.users
              = w.users.map (fun x =>
                  if x.ID = ctx.UserID then { x with Password := newPassword } else x)))
    ∧ (biz.Login.UpdatePassword env w ctx updateItem).2.destroyed = w.destroyed
    ∧ (biz.Login.UpdatePassword env w ctx updateItem).2.cache = w.cache := by
  cases hroot : ctx.IsRootUser with
  | true => simp [biz.Login.UpdatePassword, hroot]
  | false =>
    cases hug : env.fault Op.UserGet with
    | some e => simp [biz.Login.UpdatePassword, hroot, dal.User.Get, hug]
    | none =>
      cases huser : w.users.find? (fun x => x.ID = ctx.UserID) with
      | none =>
        simp [biz.Login.UpdatePassword, hroot, dal.User.Get, hug, huser, errors.NotFound]
      | some user =>
        cases hcmp : env.CompareHashAndPassword user.Password updateItem.OldPassword with
        | some e =>
          simp [biz.Login.UpdatePassword, hroot, dal.User.Get, hug, huser,
            selectFields_password, hash.CompareHashAndPassword, hcmp, errors.BadRequest]
          intros; subst_vars; simp_all
        | none =>
          cases hgen : env.GeneratePassword updateItem.NewPassword with
          | error e =>
            simp [biz.Login.UpdatePassword, hroot, dal.User.Get, hug, huser,
              selectFields_password, hash.CompareHashAndPassword, hcmp, hash.GeneratePassword,
              hgen]
            intros; subst_vars; simp_all
          | ok newPassword =>
            cases hupd : env.fault Op.UserUpdatePasswordByID <;>
              simp [biz.Login.UpdatePassword, hroot, dal.User.Get, hug, huser,
                selectFields_password, hash.CompareHashAndPassword, hcmp,
                hash.GeneratePassword, hgen, dal.User.UpdatePasswordByID, hupd] <;>
              (intros; subst_vars; simp_all)

/-- C21 (witness).  In the example state: the root principal is refused and the
state is untouched; `alice` with her old password gets the new hash written;
`alice` with a wrong old password is refused. -/
theorem C21_update_password_guards_witness :
    biz.Login.UpdatePassword exampleEnv exampleWorld
        { UserToken := "t", UserID := "root", IsRootUser := true, UserCache := none }
        ⟨"secret", "new"⟩
      = (some (errors.BadRequest "" "Root user cannot change password"), exampleWorld)
    ∧ ((biz.Login.UpdatePassword exampleEnv exampleWorld (contextOf "t" "u1") ⟨"pw1", "new"⟩).1
        = exampleEnv.fault Op.UserUpdatePasswordByID
      ∧ (exampleEnv.fault Op.UserUpdatePasswordByID = none →
          (biz.Login.UpdatePassword exampleEnv exampleWorld (contextOf "t" "u1")
              ⟨"pw1", "new"⟩).2.users
            = exampleWorld.users.map (fun x =>
                if x.ID = (contextOf "t" "u1").UserID then { x with Password := "new" } else x)))
    ∧ (biz.Login.UpdatePassword exampleEnv exampleWorld (contextOf "t" "u1") ⟨"bad", "new"⟩).1
      = some (errors.BadRequest "" "Incorrect old password") :=
  ⟨(C21_update_password_guards exampleEnv exampleWorld
      { UserToken := "t", UserID := "root", IsRootUser := true, UserCache := none }
      ⟨"secret", "new"⟩).1 rfl,
   (C21_update_password_guards exampleEnv exampleWorld (contextOf "t" "u1")
      ⟨"pw1", "new"⟩).2.2.2.2.1 ⟨"u1", "alice", "pw1", "activated"⟩ "new" rfl rfl (by decide)
      rfl rfl,
   (C21_update_password_guards exampleEnv exampleWorld (contextOf "t" "u1")
      ⟨"bad", "new"⟩).2.2.2.1 ⟨"u1", "alice", "pw1", "activated"⟩ (GoError.other "mismatch")
      rfl rfl (by decide) rfl⟩

theorem util.Trans.Exec_none (env : Env) (w : World) (fn : World → Option GoError × World)
    (h : (util.Trans.Exec env w fn).1 = none) :
    (fn w).1 = none ∧ (util.Trans.Exec env w fn).2 = (fn w).2 := by
  unfold util.Trans.Exec at h ⊢
  rcases hfn : fn w with ⟨r, w1⟩
  rw [hfn] at h
  cases r with
  | some e => simp at h
  | none =>
    cases hc : env.fault Op.Commit with
    | some e => simp [hc] at h
    | none => simp

theorem cachex.Delete_none (env : Env) (w : World) (ns key : String)
    (h : (cachex.Delete env w ns key).1 = none) :
    env.fault Op.CacheDelete = none
    ∧ (cachex.Delete env w ns key).2.trace.getLast? = some (Call.CacheDelete ns key)
    ∧ (cachex.Delete env w ns key).2.cache ns key = none := by
  rw [cachex.Delete_fst] at h
  simp [cachex.Delete, h]

/-- C22.  Every `User.Update(id, ...)` and every `User.Delete(id)` that returns no
error has called `Cacher.Delete(user namespace, id)` as its last call, that call
has returned no error, and the cache holds no entry under (user namespace, id)
when the call returns. -/
theorem C22_successful_mutation_has_invalidated_cache (env : Env) (w : World) (id : String)
    (formItem : UserForm) :
    ((biz.User.Update env w id formItem).1 = none →
      env.fault Op.CacheDelete = none
      ∧ (biz.User.Update env w id formItem).2.trace.getLast?
        = some (Call.CacheDelete env.CacheNSForUser id)
      ∧ (biz.User.Update env w id formItem).2.cache env.CacheNSForUser id = none)
    ∧ ((biz.User.Delete env w id).1 = none →
      env.fault Op.CacheDelete = none
      ∧ (biz.User.Delete env w id).2.trace.getLast?
        = some (Call.CacheDelete env.CacheNSForUser id)
      ∧ (biz.User.Delete env w id).2.cache env.CacheNSForUser id = none) := by
  constructor
  · unfold biz.User.Update
    cases hug : env.fault Op.UserGet with
    | some e => simp [dal.User.Get, hug]
    | none =>
      cases huser : w.users.find? (fun u => u.ID = id) with
      | none => simp [dal.User.Get, hug, huser, errors.NotFound]
      | some user =>
        simp only [dal.User.Get, hug, World.log_users, huser, User.selectFields, if_true,
          Option.map_some']
        split
        · intro h
          simp at h
        · cases hfill : env.FillTo formItem user with
          | error err =>
            intro h
            simp at h
          | ok filled =>
            simp only
            intro h
            obtain ⟨hbody, hw⟩ := util.Trans.Exec_none env _ _ h
            rw [hw]
            clear h hw
            revert hbody
            cases hupd : env.fault Op.UserUpdate with
            | some e => simp [dal.User.Update, hupd]
            | none =>
              cases hrd : env.fault Op.UserRoleDeleteByUserID with
              | some e => simp [dal.User.Update, hupd, dal.UserRole.DeleteByUserID, hrd]
              | none =>
                simp only [dal.User.Update, hupd, dal.UserRole.DeleteByUserID, hrd]
                split
                · intro h
                  simp at h
                · intro h
                  exact cachex.Delete_none env _ _ _ h
  · unfold biz.User.Delete
    cases hex : env.fault Op.UserExists with
    | some e => simp [dal.User.Exists, hex]
    | none =>
      cases hany : w.users.any (fun u => u.ID = id) with
      | false => simp [dal.User.Exists, hex, hany, errors.NotFound]
      | true =>
        simp only [dal.User.Exists, hex, World.log_users, hany, Bool.not_true,
          Bool.false_eq_true, if_false]
        intro h
        obtain ⟨hbody, hw⟩ := util.Trans.Exec_none env _ _ h
        rw [hw]
        clear h hw
        revert hbody
        cases hdel : env.fault Op.UserDelete with
        | some e => simp [dal.User.Delete, hdel]
        | none =>
          cases hrd : env.fault Op.UserRoleDeleteByUserID with
          | some e => simp [dal.User.Delete, hdel, dal.UserRole.DeleteByUserID, hrd]
          | none =>
            simp only [dal.User.Delete, hdel, dal.UserRole.DeleteByUserID, hrd]
            intro h
            exact cachex.Delete_none env _ _ _ h

/-- C22 (witness).  In the example state with a stale snapshot of `u2`: a
successful update and a successful delete of `u2` end with the cache delete and
leave no entry for `u2`. -/
theorem C22_successful_mutation_has_invalidated_cache_witness :
    (staleWorld.cache exampleEnv.CacheNSForUser "u2").isSome = true
    ∧ (exampleEnv.fault Op.CacheDelete = none
      ∧ (biz.User.Update exampleEnv staleWorld "u2" ⟨"bob", "", "activated", []⟩).2.trace.getLast?
        = some (Call.CacheDelete exampleEnv.CacheNSForUser "u2")
      ∧ (biz.User.Update exampleEnv staleWorld "u2" ⟨"bob", "", "activated", []⟩).2.cache
          exampleEnv.CacheNSForUser "u2" = none)
    ∧ (exampleEnv.fault Op.CacheDelete = none
      ∧ (biz.User.Delete exampleEnv staleWorld "u2").2.trace.getLast?
        = some (Call.CacheDelete exampleEnv.CacheNSForUser "u2")
      ∧ (biz.User.Delete exampleEnv staleWorld "u2").2.cache exampleEnv.CacheNSForUser "u2"
        = none) :=
  ⟨by decide,
   (C22_successful_mutation_has_invalidated_cache exampleEnv staleWorld "u2"
      ⟨"bob", "", "activated", []⟩).1 (by decide),
   (C22_successful_mutation_has_invalidated_cache exampleEnv staleWorld "u2"
      ⟨"bob", "", "activated", []⟩).2 (by decide)⟩

theorem Allow_err_none (s : RateLimiterMemoryStore) (now : Int) (identifier : String)
    (period maxRequests : Int) : (s.Allow now identifier period maxRequests).1.2 = none := by
  unfold RateLimiterMemoryStore.Allow
  split_ifs
  · rfl
  · cases s.cache.Get now identifier <;> rfl

/-- C23.  The enabled rate-limiter middleware hands a request to the next handler
and leaves the store as it is when the path matches a skipped prefix, also when
it passes the allowed-prefix check, and when the path fails the allowed-prefix
check.  For every other path it calls `Allow` once, for the user id of the
request or else for the address of the client, and hands the request on exactly
when `Allow` allows it.  So a changed store or a refused request implies that
the path passed the allowed-prefix check and matched no skipped prefix. -/
theorem C23_limiter_consulted_only_for_filtered_paths (config : middleware.RateLimiterConfig)
    (store : RateLimiterMemoryStore) (now : Int) (c : middleware.Request)
    (hen : config.Enable = true) :
    (middleware.SkippedPathPrefixes c.Path config.SkippedPathPrefixes = true →
      middleware.RateLimiterWithConfig config store now c = (middleware.Outcome.Next, store))
    ∧ (middleware.AllowedPathPrefixes c.Path config.AllowedPathPrefixes = false →
      middleware.RateLimiterWithConfig config store now c = (middleware.Outcome.Next, store))
    ∧ (middleware.AllowedPathPrefixes c.Path config.AllowedPathPrefixes = true →
        middleware.SkippedPathPrefixes c.Path config.SkippedPathPrefixes = false →
        ∀ identifier maxRequests,
          (identifier, maxRequests)
            = (if c.UserID ≠ "" then (c.UserID, config.MaxRequestsPerUser)
               else (c.ClientIP, config.MaxRequestsPerIP)) →
          (middleware.RateLimiterWithConfig config store now c).2
            = (store.Allow now identifier (time.Seconds config.Period) maxRequests).2
          ∧ ((middleware.RateLimiterWithConfig config store now c).1 = middleware.Outcome.Next
              ↔ (store.Allow now identifier (time.Seconds config.Period) maxRequests).1.1
                  = true))
    ∧ (middleware.RateLimiterWithConfig config store now c ≠ (middleware.Outcome.Next, store) →
        middleware.AllowedPathPrefixes c.Path config.AllowedPathPrefixes = true
        ∧ middleware.SkippedPathPrefixes c.Path config.SkippedPathPrefixes = false) := by
  refine ⟨?_, ?_, ?_, ?_⟩
  · intro hs
    simp [middleware.RateLimiterWithConfig, hen, middleware.rateLimiterHandler, hs]
  · intro ha
    simp [middleware.RateLimiterWithConfig, hen, middleware.rateLimiterHandler, ha]
  · intro ha hs identifier maxRequests hid
    by_cases hu : c.UserID = ""
    · simp only [hu, ne_eq, not_true_eq_false, if_false, Prod.mk.injEq] at hid
      obtain ⟨rfl, rfl⟩ := hid
      have herr := Allow_err_none store now c.ClientIP (time.Seconds config.Period)
        config.MaxRequestsPerIP
      rcases hr : store.Allow now c.ClientIP (time.Seconds config.Period)
        config.MaxRequestsPerIP with ⟨⟨allowed, err⟩, s'⟩
      rw [hr] at herr
      simp only at herr
      subst herr
      cases allowed <;>
        simp [middleware.RateLimiterWithConfig, hen, middleware.rateLimiterHandler, ha, hs, hu,
          hr]
    · simp only [hu, ne_eq, not_false_eq_true, if_true, Prod.mk.injEq] at hid
      obtain ⟨rfl, rfl⟩ := hid
      have herr := Allow_err_none store now c.UserID (time.Seconds config.Period)
        config.MaxRequestsPerUser
      rcases hr : store.Allow now c.UserID (time.Seconds config.Period)
        config.MaxRequestsPerUser with ⟨⟨allowed, err⟩, s'⟩
      rw [hr] at herr
      simp only at herr
      subst herr
      cases allowed <;>
        simp [middleware.RateLimiterWithConfig, hen, middleware.rateLimiterHandler, ha, hs, hu,
          hr]
  · intro hne
    cases ha : middleware.AllowedPathPrefixes c.Path config.AllowedPathPrefixes with
    | false =>
      simp [middleware.RateLimiterWithConfig, hen, middleware.rateLimiterHandler, ha] at hne
    | true =>
      cases hs : middleware.SkippedPathPrefixes c.Path config.SkippedPathPrefixes with
      | true =>
        simp [middleware.RateLimiterWithConfig, hen, middleware.rateLimiterHandler, hs] at hne
      | false => exact ⟨rfl, rfl⟩

/-- C23 (witness).  The address `ip` has used up its bucket: a request for a path
under the skipped prefix `/api/v1/login`, which is also under the allowed prefix
`/api`, and a request for a path outside `/api` are handed on and leave the store
as it is, while a request for `/api/v1/users` is refused. -/
theorem C23_limiter_consulted_only_for_filtered_paths_witness :
    middleware.RateLimiterWithConfig exampleLimiterConfig exhaustedStore 5
        ⟨"/api/v1/login/captcha", "", "ip"⟩ = (middleware.Outcome.Next, exhaustedStore)
    ∧ middleware.RateLimiterWithConfig exampleLimiterConfig exhaustedStore 5
        ⟨"/static/logo.png", "", "ip"⟩ = (middleware.Outcome.Next, exhaustedStore)
    ∧ (middleware.RateLimiterWithConfig exampleLimiterConfig exhaustedStore 5
        ⟨"/api/v1/users", "", "ip"⟩).1
      = middleware.Outcome.ResError
          (errors.TooManyRequests "" "Too many requests, please try again later.") :=
  ⟨(C23_limiter_consulted_only_for_filtered_paths exampleLimiterConfig exhaustedStore 5
      ⟨"/api/v1/login/captcha", "", "ip"⟩ rfl).1 (by decide),
   (C23_limiter_consulted_only_for_filtered_paths exampleLimiterConfig exhaustedStore 5
      ⟨"/static/logo.png", "", "ip"⟩ rfl).2.1 (by decide),
   by decide⟩

theorem strings.splitChars_ne_nil (sep : Char) (l : List Char) :
    strings.splitChars sep l ≠ [] := by
  cases l with
  | nil => simp [strings.splitChars]
  | cons c cs =>
    unfold strings.splitChars
    split_ifs
    · simp
    · split <;> simp

theorem strings.intercalate_two_or_more {α : Type} (sep x y : List α) (rest : List (List α)) :
    List.intercalate sep (x :: y :: rest) = x ++ sep ++ List.intercalate sep (y :: rest) := by
  simp [List.intercalate, List.intersperse]

theorem strings.splitChars_intercalate (sep : Char) (l : List Char) :
    List.intercalate [sep] (strings.splitChars sep l) = l := by
  induction l with
  | nil => simp [strings.splitChars, List.intercalate, List.intersperse]
  | cons c cs ih =>
    unfold strings.splitChars
    rcases hs : strings.splitChars sep cs with _ | ⟨piece, pieces⟩
    · exact absurd hs (strings.splitChars_ne_nil sep cs)
    · rw [hs] at ih
      by_cases hc : c = sep
      · rw [if_pos hc, strings.intercalate_two_or_more, ih, hc]
        rfl
      · rw [if_neg hc]
        simp only
        cases pieces with
        | nil =>
          simp only [List.intercalate, List.intersperse] at ih ⊢
          simp only [List.flatten, List.append_nil] at ih ⊢
          rw [ih]
        | cons q qs =>
          rw [strings.intercalate_two_or_more] at ih ⊢
          rw [← ih]
          rfl

theorem strings.splitChars_no_sep (sep : Char) (l : List Char) :
    ∀ piece ∈ strings.splitChars sep l, sep ∉ piece := by
  induction l with
  | nil => simp [strings.splitChars]
  | cons c cs ih =>
    unfold strings.splitChars
    by_cases hc : c = sep
    · rw [if_pos hc]
      intro piece hp
      rcases List.mem_cons.mp hp with h | h
      · rw [h]; simp
      · exact ih piece h
    · rw [if_neg hc]
      rcases hs : strings.splitChars sep cs with _ | ⟨first, pieces⟩
      · exact absurd hs (strings.splitChars_ne_nil sep cs)
      · rw [hs] at ih
        simp only
        intro piece hp
        rcases List.mem_cons.mp hp with h | h
        · rw [h]
          intro hmem
          rcases List.mem_cons.mp hmem with h1 | h1
          · exact hc h1.symm
          · exact ih first (List.mem_cons_self _ _) h1
        · exact ih piece (List.mem_cons_of_mem _ h)

theorem strings.Split_empty (sep : Char) : strings.Split "" sep = [""] := by
  simp [strings.Split, strings.splitChars]

theorem strings.TrimSpace_empty : strings.TrimSpace "" = "" := by
  simp [strings.TrimSpace]

theorem apis.firstNonBlank_leftmost (pre : List String) (e : String) (post : List String)
    (hpre : ∀ x ∈ pre, strings.TrimSpace x = "") (he : strings.TrimSpace e ≠ "") :
    apis.firstNonBlank (pre ++ e :: post) = some (strings.TrimSpace e) := by
  induction pre with
  | nil => simp [apis.firstNonBlank, he]
  | cons x xs ih =>
    have hx := hpre x (List.mem_cons_self _ _)
    simp only [List.cons_append, apis.firstNonBlank, hx, ne_eq, not_true_eq_false, if_false]
    exact ih (fun y hy => hpre y (List.mem_cons_of_mem _ hy))

theorem apis.firstNonBlank_none (l : List String) :
    apis.firstNonBlank l = none ↔ ∀ x ∈ l, strings.TrimSpace x = "" := by
  induction l with
  | nil => simp [apis.firstNonBlank]
  | cons x xs ih =>
    by_cases hx : strings.TrimSpace x = ""
    · simp [apis.firstNonBlank, hx, ih]
    · simp [apis.firstNonBlank, hx]

/-- C26.  `realUserIp` returns, in this order of priority: the header
`CF-Connecting-IP` when it is not empty; else `Fly-Client-IP` when it is not
empty; else `X-Real-IP` when it is not empty; else the leftmost entry of the
comma-separated `X-Forwarded-For` that is not empty once trimmed, trimmed.  The
final `return fallbackIp` is reached if and only if the three headers are empty
and every entry of `X-Forwarded-For` is blank, and then the result is
`fallbackIp`.  The entries are the pieces of the header between its commas. -/
theorem C26_realUserIp_priority (header : String → String) (fallbackIp : String) :
    apis.realUserIp header fallbackIp = (apis.realUserIpFrom header fallbackIp).2
    ∧ (header "CF-Connecting-IP" ≠ "" →
        apis.realUserIpFrom header fallbackIp
          = (apis.IpSource.CFConnectingIP, header "CF-Connecting-IP"))
    ∧ (header "CF-Connecting-IP" = "" → header "Fly-Client-IP" ≠ "" →
        apis.realUserIpFrom header fallbackIp
          = (apis.IpSource.FlyClientIP, header "Fly-Client-IP"))
    ∧ (header "CF-Connecting-IP" = "" → header "Fly-Client-IP" = "" →
        header "X-Real-IP" ≠ "" →
        apis.realUserIpFrom header fallbackIp = (apis.IpSource.XRealIP, header "X-Real-IP"))
    ∧ (header "CF-Connecting-IP" = "" → header "Fly-Client-IP" = "" →
        header "X-Real-IP" = "" →
        ∀ pre e post, strings.Split (header "X-Forwarded-For") ',' = pre ++ e :: post →
          (∀ x ∈ pre, strings.TrimSpace x = "") → strings.TrimSpace e ≠ "" →
          apis.realUserIpFrom header fallbackIp
            = (apis.IpSource.XForwardedFor, strings.TrimSpace e))
    ∧ ((apis.realUserIpFrom header fallbackIp).1 = apis.IpSource.Fallback
        ↔ header "CF-Connecting-IP" = "" ∧ header "Fly-Client-IP" = ""
          ∧ header "X-Real-IP" = ""
          ∧ ∀ x ∈ strings.Split (header "X-Forwarded-For") ',', strings.TrimSpace x = "")
    ∧ ((apis.realUserIpFrom header fallbackIp).1 = apis.IpSource.Fallback →
        apis.realUserIp header fallbackIp = fallbackIp)
    ∧ List.intercalate [','] ((strings.Split (header "X-Forwarded-For") ',').map String.data)
        = (header "X-Forwarded-For").data
    ∧ (∀ x ∈ strings.Split (header "X-Forwarded-For") ',', ',' ∉ x.data) := by
  have hval : apis.realUserIp header fallbackIp = (apis.realUserIpFrom header fallbackIp).2 := by
    unfold apis.realUserIp apis.realUserIpFrom
    simp only
    split_ifs <;> first | rfl | (split <;> rfl)
  have hsplit : List.intercalate [',']
      ((strings.Split (header "X-Forwarded-For") ',').map String.data)
        = (header "X-Forwarded-For").data := by
    have hmap : (strings.Split (header "X-Forwarded-For") ',').map String.data
        = strings.splitChars ',' (header "X-Forwarded-For").data := by
      simp [strings.Split, Function.comp_def]
    rw [hmap, strings.splitChars_intercalate]
  have hnosep : ∀ x ∈ strings.Split (header "X-Forwarded-For") ',', ',' ∉ x.data := by
    intro x hx
    simp only [strings.Split, List.mem_map] at hx
    obtain ⟨piece, hp, rfl⟩ := hx
    exact strings.splitChars_no_sep ',' _ piece hp
  refine ⟨hval, ?_, ?_, ?_, ?_, ?_, ?_, hsplit, hnosep⟩
  · intro h
    simp [apis.realUserIpFrom, h]
  · intro h1 h2
    simp [apis.realUserIpFrom, h1, h2]
  · intro h1 h2 h3
    simp [apis.realUserIpFrom, h1, h2, h3]
  · intro h1 h2 h3 pre e post hs hpre he
    have hfirst := apis.firstNonBlank_leftmost pre e post hpre he
    have hx : header "X-Forwarded-For" ≠ "" := by
      intro hempty
      rw [hempty, strings.Split_empty] at hs
      cases pre with
      | nil =>
        simp only [List.nil_append, List.cons.injEq] at hs
        rw [← hs.1] at he
        exact he strings.TrimSpace_empty
      | cons x xs =>
        have := congrArg List.length hs
        simp at this
    simp [apis.realUserIpFrom, h1, h2, h3, hx, hs, hfirst]
  · by_cases h1 : header "CF-Connecting-IP" = ""
    · by_cases h2 : header "Fly-Client-IP" = ""
      · by_cases h3 : header "X-Real-IP" = ""
        · by_cases hx : header "X-Forwarded-For" = ""
          · simp [apis.realUserIpFrom, h1, h2, h3, hx, strings.Split_empty,
              strings.TrimSpace_empty]
          · rcases hf : apis.firstNonBlank (strings.Split (header "X-Forwarded-For") ',')
              with _ | ip
            · have hall := (apis.firstNonBlank_none _).mp hf
              simp [apis.realUserIpFrom, h1, h2, h3, hx, hf]
              exact hall
            · have hnot : ¬ ∀ x ∈ strings.Split (header "X-Forwarded-For") ',',
                  strings.TrimSpace x = "" := by
                intro hall
                rw [(apis.firstNonBlank_none _).mpr hall] at hf
                exact Option.noConfusion hf
              simp [apis.realUserIpFrom, h1, h2, h3, hx, hf]
              push_neg at hnot
              exact hnot
        · simp [apis.realUserIpFrom, h1, h2, h3]
      · simp [apis.realUserIpFrom, h1, h2]
    · simp [apis.realUserIpFrom, h1]
  · intro hfb
    rw [hval]
    revert hfb
    unfold apis.realUserIpFrom
    simp only
    split_ifs <;> first | (intro h; exact absurd h (by decide)) | (intro _; rfl) | skip
    split
    · intro h; simp at h
    · intro _; rfl

/-- C26 (witness).  A request that carries only `X-Forwarded-For`: with the value
` , 10.0.0.1 ,10.0.0.2` the result is `10.0.0.1`, with a value made of blank
entries the result is the fallback. -/
theorem C26_realUserIp_priority_witness :
    apis.realUserIpFrom (forwardedFor " , 10.0.0.1 ,10.0.0.2") "9.9.9.9"
      = (apis.IpSource.XForwardedFor, strings.TrimSpace " 10.0.0.1 ")
    ∧ strings.TrimSpace " 10.0.0.1 " = "10.0.0.1"
    ∧ apis.realUserIp (forwardedFor " , ,") "9.9.9.9" = "9.9.9.9" :=
  ⟨(C26_realUserIp_priority (forwardedFor " , 10.0.0.1 ,10.0.0.2") "9.9.9.9").2.2.2.2.1
      rfl rfl rfl [" "] " 10.0.0.1 " ["10.0.0.2"] (by decide) (by decide) (by decide),
   by decide,
   (C26_realUserIp_priority (forwardedFor " , ,") "9.9.9.9").2.2.2.2.2.2.1 (by decide)⟩
